import Mathlib

/-!
Verification of the wireproxy-awg AmneziaWG configuration compiler and
SOCKS5 UDP relay subsystems, as a shallow embedding of the Go sources
(`awg_config.go`, `socks5_udp.go`, and the device/IPC serialization file).

Go machine integers are modelled as `Int` (for `int` fields) and `Nat`
(for `uint32` values, kept below `2 ^ 32` by the parser).  Go strings are
Lean `String`s; byte slices are `List Nat`.  Fallible Go functions
returning `(..., error)` are modelled with `Except String` or
`Option String` (the error message).
-/

namespace Wireproxy

/-! ## Decimal conversion (models strconv.FormatUint / strconv.ParseUint, base 10) -/

/-- Decimal digit character for a digit value `0..9`. -/
def decDigitChar (d : Nat) : Char := Char.ofNat (48 + d)

/-- Fuel-driven digit emission (structural recursion; the fuel never runs
out when it exceeds `n`). -/
def decCharsAux : Nat → Nat → List Char
  | 0, _ => []
  | fuel + 1, n =>
    if n < 10 then [decDigitChar n]
    else decCharsAux fuel (n / 10) ++ [decDigitChar (n % 10)]

/-- Decimal digit characters of `n`, most significant first.
Models `strconv.FormatUint(n, 10)`. -/
def decChars (n : Nat) : List Char := decCharsAux (n + 1) n

/-- Decimal representation of a natural number as a string. -/
def decimalRepr (n : Nat) : String := String.mk (decChars n)

/-- Decimal representation of a Go `int` value (models `fmt.Sprintf %d`). -/
def intRepr (n : Int) : String :=
  if n < 0 then "-" ++ decimalRepr n.natAbs else decimalRepr n.natAbs

/-- Whether a character is an ASCII decimal digit. -/
def isDecDigit (c : Char) : Bool := 48 ≤ c.toNat && c.toNat ≤ 57

/-- Accumulating decimal evaluation of a digit-character list. -/
def decValueAux (acc : Nat) : List Char → Nat
  | [] => acc
  | c :: cs => decValueAux (acc * 10 + (c.toNat - 48)) cs

/-- Models `strconv.ParseUint(s, 10, 32)`: the input must be a nonempty
string of decimal digits whose value fits in 32 bits. -/
def parseUint32 (cs : List Char) : Except String Nat :=
  if cs.isEmpty then .error "invalid syntax"
  else if cs.all isDecDigit then
    let v := decValueAux 0 cs
    if v < 2 ^ 32 then .ok v else .error "value out of range"
  else .error "invalid syntax"

/-! ## String helpers (models strings.TrimSpace / strings.Split on "-") -/

/-- Models `strings.TrimSpace` (ASCII whitespace). -/
def trimSpace (cs : List Char) : List Char :=
  ((cs.dropWhile Char.isWhitespace).reverse.dropWhile Char.isWhitespace).reverse

/-- Models `strings.Split(s, "-")`. -/
def splitOnDash : List Char → List (List Char)
  | [] => [[]]
  | c :: cs =>
    if c = '-' then [] :: splitOnDash cs
    else
      match splitOnDash cs with
      | [] => [[c]]
      | p :: ps => (c :: p) :: ps

/-! ## AmneziaWG configuration (awg_config.go) -/

/-- Error strings of `ValidateASecConfig` and `parseMagicHeaderInterval`. -/
def jcRangeError : String := "value of the Jc field must be within the range of 1 to 128"

def jminJmaxError : String := "value of the Jmin field must be less than or equal to Jmax field value"

def jmaxLimitError : String := "value of the Jmax field must be less than or equal 1280"

def sizeCollisionLongError : String :=
  "value of the field S1 + message initiation size (148) must not equal S2 + message response size (92) + S3 + cookie reply size (64) + S4 + transport packet size (32)"

def sizeCollisionShortError : String :=
  "value of the field S1 + message initiation size (148) must not equal S2 + message response size (92)"

def headerRangeError : String := "invalid magic header range: lower bound cannot exceed upper bound"

def headerUniqueError : String := "values of the H1-H4 fields must be unique"

/-- `ASecConfigType` from awg_config.go.  Default field values are the Go
zero values of the struct. -/
structure ASecConfigType where
  junkPacketCount : Int := 0
  junkPacketMinSize : Int := 0
  junkPacketMaxSize : Int := 0
  initPacketJunkSize : Int := 0
  responsePacketJunkSize : Int := 0
  cookieReplyPacketJunkSize : Int := 0
  transportPacketJunkSize : Int := 0
  initPacketMagicHeader : Nat := 0
  initPacketMagicHeaderMax : Nat := 0
  responsePacketMagicHeader : Nat := 0
  responsePacketMagicHeaderMax : Nat := 0
  underloadPacketMagicHeader : Nat := 0
  underloadPacketMagicHeaderMax : Nat := 0
  transportPacketMagicHeader : Nat := 0
  transportPacketMagicHeaderMax : Nat := 0
  hasJunkPacketCount : Bool := false
  hasJunkPacketMinSize : Bool := false
  hasJunkPacketMaxSize : Bool := false
  hasInitPacketJunkSize : Bool := false
  hasResponsePacketJunkSize : Bool := false
  hasCookieReplyPacketJunkSize : Bool := false
  hasTransportPacketJunkSize : Bool := false
  hasInitPacketMagicHeader : Bool := false
  hasResponsePacketMagicHeader : Bool := false
  hasUnderloadPacketMagicHeader : Bool := false
  hasTransportPacketMagicHeader : Bool := false
  i1 : Option String := none
  i2 : Option String := none
  i3 : Option String := none
  i4 : Option String := none
  i5 : Option String := none
deriving Repr, DecidableEq

def defaultInitPacketMagicHeader : Nat := 1

def defaultResponsePacketMagicHeader : Nat := 2

def defaultUnderloadPacketMagicHeader : Nat := 3

def defaultTransportPacketMagicHeader : Nat := 4

/-- `headerInterval` from awg_config.go. -/
structure headerInterval where
  key : String
  min : Nat
  max : Nat
deriving Repr, DecidableEq

/-- `parseMagicHeaderInterval` from awg_config.go: accepts a bare decimal
scalar or a `min-max` range of 32-bit unsigned decimals. -/
def parseMagicHeaderInterval (value : String) : Except String (Nat × Nat) :=
  let trimmed := trimSpace value.data
  if trimmed.isEmpty then .error "empty magic header value"
  else
    match splitOnDash trimmed with
    | [] => .error "invalid magic header range format"
    | p0 :: rest =>
      if p0.isEmpty || rest.length > 1 then .error "invalid magic header range format"
      else
        match parseUint32 p0 with
        | .error e => .error e
        | .ok minValue =>
          match rest with
          | [] => .ok (minValue, minValue)
          | p1 :: _ =>
            if p1.isEmpty then .error "invalid magic header range format"
            else
              match parseUint32 p1 with
              | .error e => .error e
              | .ok maxValue =>
                if minValue > maxValue then .error headerRangeError
                else .ok (minValue, maxValue)

/-- `formatMagicHeaderInterval` from awg_config.go. -/
def formatMagicHeaderInterval (minValue maxValue : Nat) : String :=
  if minValue = maxValue then decimalRepr minValue
  else decimalRepr minValue ++ "-" ++ decimalRepr maxValue

/-- `collectEffectiveHeaderIntervals` from awg_config.go: user-supplied
intervals when set, otherwise the scalar defaults 1, 2, 3, 4. -/
def collectEffectiveHeaderIntervals (config : Option ASecConfigType) : List headerInterval :=
  let h1 : headerInterval :=
    match config with
    | some c =>
      if c.hasInitPacketMagicHeader then
        ⟨"h1", c.initPacketMagicHeader, c.initPacketMagicHeaderMax⟩
      else ⟨"h1", defaultInitPacketMagicHeader, defaultInitPacketMagicHeader⟩
    | none => ⟨"h1", defaultInitPacketMagicHeader, defaultInitPacketMagicHeader⟩
  let h2 : headerInterval :=
    match config with
    | some c =>
      if c.hasResponsePacketMagicHeader then
        ⟨"h2", c.responsePacketMagicHeader, c.responsePacketMagicHeaderMax⟩
      else ⟨"h2", defaultResponsePacketMagicHeader, defaultResponsePacketMagicHeader⟩
    | none => ⟨"h2", defaultResponsePacketMagicHeader, defaultResponsePacketMagicHeader⟩
  let h3 : headerInterval :=
    match config with
    | some c =>
      if c.hasUnderloadPacketMagicHeader then
        ⟨"h3", c.underloadPacketMagicHeader, c.underloadPacketMagicHeaderMax⟩
      else ⟨"h3", defaultUnderloadPacketMagicHeader, defaultUnderloadPacketMagicHeader⟩
    | none => ⟨"h3", defaultUnderloadPacketMagicHeader, defaultUnderloadPacketMagicHeader⟩
  let h4 : headerInterval :=
    match config with
    | some c =>
      if c.hasTransportPacketMagicHeader then
        ⟨"h4", c.transportPacketMagicHeader, c.transportPacketMagicHeaderMax⟩
      else ⟨"h4", defaultTransportPacketMagicHeader, defaultTransportPacketMagicHeader⟩
    | none => ⟨"h4", defaultTransportPacketMagicHeader, defaultTransportPacketMagicHeader⟩
  [h1, h2, h3, h4]

/-- `hasOverlappingHeaderIntervals` from awg_config.go: the nested loop over
pairs `i < j` testing inclusive overlap. -/
def hasOverlappingHeaderIntervals : List headerInterval → Bool
  | [] => false
  | left :: rest =>
    rest.any (fun right => decide (left.min ≤ right.max) && decide (right.min ≤ left.max))
      || hasOverlappingHeaderIntervals rest

/-- `packetSizeCheck` local struct of `ValidateASecConfig`. -/
structure packetSizeCheck where
  isSet : Bool
  size : Int
deriving Repr, DecidableEq

/-- The nested loop of `ValidateASecConfig` over pairs `i < j` of set packet
sizes, testing equality. -/
def anyEqualSetPair : List packetSizeCheck → Bool
  | [] => false
  | p :: rest =>
    (p.isSet && rest.any (fun q => q.isSet && decide (p.size = q.size)))
      || anyEqualSetPair rest

/-- The `packetSizes` slice built by `ValidateASecConfig` (message sizes
148, 92, 64, 32 plus the junk sizes). -/
def packetSizes (c : ASecConfigType) : List packetSizeCheck :=
  [⟨c.hasInitPacketJunkSize, 148 + c.initPacketJunkSize⟩,
   ⟨c.hasResponsePacketJunkSize, 92 + c.responsePacketJunkSize⟩,
   ⟨c.hasCookieReplyPacketJunkSize, 64 + c.cookieReplyPacketJunkSize⟩,
   ⟨c.hasTransportPacketJunkSize, 32 + c.transportPacketJunkSize⟩]

/-- `ValidateASecConfig` from awg_config.go.  Returns `some msg` when
validation fails with error message `msg`, `none` on success. -/
def ValidateASecConfig (config : Option ASecConfigType) : Option String :=
  match config with
  | none => none
  | some c =>
    if c.hasJunkPacketCount && (decide (c.junkPacketCount < 1) || decide (c.junkPacketCount > 128)) then
      some jcRangeError
    else if c.hasJunkPacketMinSize && c.hasJunkPacketMaxSize
        && decide (c.junkPacketMinSize > c.junkPacketMaxSize) then
      some jminJmaxError
    else if c.hasJunkPacketMaxSize && decide (c.junkPacketMaxSize > 1280) then
      some jmaxLimitError
    else if anyEqualSetPair (packetSizes c) then
      if c.hasCookieReplyPacketJunkSize || c.hasTransportPacketJunkSize then
        some sizeCollisionLongError
      else some sizeCollisionShortError
    else if (collectEffectiveHeaderIntervals (some c)).any (fun iv => decide (iv.min > iv.max)) then
      some headerRangeError
    else if hasOverlappingHeaderIntervals (collectEffectiveHeaderIntervals (some c)) then
      some headerUniqueError
    else none

/-! ## ParseASecConfig (awg_config.go)

The INI section itself is external (go-ini); we model the section as the
optional raw values of the AWG keys after INI tokenization.  Numeric keys
carry the value already converted by `sectionKey.Int()` (that conversion is
part of the external INI library; a conversion failure aborts parsing
before any behavior modelled here).  H keys carry the raw string handed to
`parseMagicHeaderInterval`; I keys carry the raw string. -/

/-- The AWG-relevant keys of a parsed `[Interface]` INI section. -/
structure AwgSectionValues where
  jc : Option Int := none
  jmin : Option Int := none
  jmax : Option Int := none
  s1 : Option Int := none
  s2 : Option Int := none
  s3 : Option Int := none
  s4 : Option Int := none
  h1 : Option String := none
  h2 : Option String := none
  h3 : Option String := none
  h4 : Option String := none
  i1 : Option String := none
  i2 : Option String := none
  i3 : Option String := none
  i4 : Option String := none
  i5 : Option String := none
deriving Repr, DecidableEq

/-- Point where `ParseASecConfig` allocates the config on first present key
(`if aSecConfig == nil { aSecConfig = &ASecConfigType{} }`). -/
def ensureConfig : Option ASecConfigType → ASecConfigType
  | some c => c
  | none => {}

/-- One `GetKey`/`Int` block of `ParseASecConfig` for an integer field. -/
def applyIntField (cfg : Option ASecConfigType) (v : Option Int)
    (setter : ASecConfigType → Int → ASecConfigType) : Option ASecConfigType :=
  match v with
  | none => cfg
  | some value => some (setter (ensureConfig cfg) value)

/-- One `GetKey`/`parseMagicHeaderInterval` block of `ParseASecConfig` for a
magic-header field. -/
def applyHeaderField (cfg : Option ASecConfigType) (v : Option String)
    (setter : ASecConfigType → Nat → Nat → ASecConfigType) :
    Except String (Option ASecConfigType) :=
  match v with
  | none => .ok cfg
  | some s =>
    match parseMagicHeaderInterval s with
    | .error e => .error e
    | .ok p => .ok (some (setter (ensureConfig cfg) p.1 p.2))

/-- One `GetKey` block of `ParseASecConfig` for an I field. -/
def applyStrField (cfg : Option ASecConfigType) (v : Option String)
    (setter : ASecConfigType → String → ASecConfigType) : Option ASecConfigType :=
  match v with
  | none => cfg
  | some value => some (setter (ensureConfig cfg) value)

/-- The Jc/Jmin/Jmax/S1..S4 blocks of `ParseASecConfig`, in source order. -/
def parseJunkFields (sec : AwgSectionValues) : Option ASecConfigType :=
  let cfg := applyIntField none sec.jc
    (fun c v => { c with junkPacketCount := v, hasJunkPacketCount := true })
  let cfg := applyIntField cfg sec.jmin
    (fun c v => { c with junkPacketMinSize := v, hasJunkPacketMinSize := true })
  let cfg := applyIntField cfg sec.jmax
    (fun c v => { c with junkPacketMaxSize := v, hasJunkPacketMaxSize := true })
  let cfg := applyIntField cfg sec.s1
    (fun c v => { c with initPacketJunkSize := v, hasInitPacketJunkSize := true })
  let cfg := applyIntField cfg sec.s2
    (fun c v => { c with responsePacketJunkSize := v, hasResponsePacketJunkSize := true })
  let cfg := applyIntField cfg sec.s3
    (fun c v => { c with cookieReplyPacketJunkSize := v, hasCookieReplyPacketJunkSize := true })
  applyIntField cfg sec.s4
    (fun c v => { c with transportPacketJunkSize := v, hasTransportPacketJunkSize := true })

/-- The field assignments of the H1 block of `ParseASecConfig`. -/
def setH1 (c : ASecConfigType) (mn mx : Nat) : ASecConfigType :=
  { c with initPacketMagicHeader := mn, initPacketMagicHeaderMax := mx,
           hasInitPacketMagicHeader := true }

/-- The field assignments of the H2 block of `ParseASecConfig`. -/
def setH2 (c : ASecConfigType) (mn mx : Nat) : ASecConfigType :=
  { c with responsePacketMagicHeader := mn, responsePacketMagicHeaderMax := mx,
           hasResponsePacketMagicHeader := true }

/-- The field assignments of the H3 block of `ParseASecConfig`. -/
def setH3 (c : ASecConfigType) (mn mx : Nat) : ASecConfigType :=
  { c with underloadPacketMagicHeader := mn, underloadPacketMagicHeaderMax := mx,
           hasUnderloadPacketMagicHeader := true }

/-- The field assignments of the H4 block of `ParseASecConfig`. -/
def setH4 (c : ASecConfigType) (mn mx : Nat) : ASecConfigType :=
  { c with transportPacketMagicHeader := mn, transportPacketMagicHeaderMax := mx,
           hasTransportPacketMagicHeader := true }

/-- The H1..H4 blocks of `ParseASecConfig`, in source order. -/
def parseHeaderFields (cfg : Option ASecConfigType) (sec : AwgSectionValues) :
    Except String (Option ASecConfigType) := do
  let cfg ← applyHeaderField cfg sec.h1 setH1
  let cfg ← applyHeaderField cfg sec.h2 setH2
  let cfg ← applyHeaderField cfg sec.h3 setH3
  applyHeaderField cfg sec.h4 setH4

/-- The I1..I5 blocks of `ParseASecConfig`, in source order. -/
def parseIFields (cfg : Option ASecConfigType) (sec : AwgSectionValues) :
    Option ASecConfigType :=
  let cfg := applyStrField cfg sec.i1 (fun c v => { c with i1 := some v })
  let cfg := applyStrField cfg sec.i2 (fun c v => { c with i2 := some v })
  let cfg := applyStrField cfg sec.i3 (fun c v => { c with i3 := some v })
  let cfg := applyStrField cfg sec.i4 (fun c v => { c with i4 := some v })
  applyStrField cfg sec.i5 (fun c v => { c with i5 := some v })

/-- `ParseASecConfig` from awg_config.go: reads each AWG key in order,
then validates. -/
def ParseASecConfig (sec : AwgSectionValues) : Except String (Option ASecConfigType) := do
  let cfg := parseJunkFields sec
  let cfg ← parseHeaderFields cfg sec
  let cfg := parseIFields cfg sec
  match ValidateASecConfig cfg with
  | some e => .error e
  | none => .ok cfg

/-! ## IPC request serialization (CreateIPCRequest)

The serializer writes newline-terminated `key=value` lines into a buffer.
We model the request as the ordered list of `(key, value)` pairs written;
the IPC text is the concatenation of `key ++ "=" ++ value ++ "\n"` over
this list.  `DeviceConfig` is restricted to the fields `CreateIPCRequest`
reads for line production (`DNS`, device addresses and `MTU` are copied
into `DeviceSetting` unchanged and produce no lines). -/

/-- Peer fields used by `CreateIPCRequest`.  Allowed-IP prefixes are kept
as their rendered `ip.String()` text (netip rendering is external). -/
structure PeerConfig where
  PublicKey : String
  PreSharedKey : String
  KeepAlive : Int
  Endpoint : Option String := none
  AllowedIPs : List String := []
deriving Repr, DecidableEq

/-- Device fields used by `CreateIPCRequest` for line production. -/
structure DeviceConfig where
  SecretKey : String
  ListenPort : Option Int := none
  ASecConfig : Option ASecConfigType := none
  Peers : List PeerConfig := []
deriving Repr, DecidableEq

/-- The AmneziaWG block of `CreateIPCRequest`: one `key=value` pair per set
field, written in the source's fixed order. -/
def aSecIpcPairs (a : ASecConfigType) : List (String × String) :=
  (if a.hasJunkPacketCount then [("jc", intRepr a.junkPacketCount)] else []) ++
  (if a.hasJunkPacketMinSize then [("jmin", intRepr a.junkPacketMinSize)] else []) ++
  (if a.hasJunkPacketMaxSize then [("jmax", intRepr a.junkPacketMaxSize)] else []) ++
  (if a.hasInitPacketJunkSize then [("s1", intRepr a.initPacketJunkSize)] else []) ++
  (if a.hasResponsePacketJunkSize then [("s2", intRepr a.responsePacketJunkSize)] else []) ++
  (if a.hasCookieReplyPacketJunkSize then [("s3", intRepr a.cookieReplyPacketJunkSize)] else []) ++
  (if a.hasTransportPacketJunkSize then [("s4", intRepr a.transportPacketJunkSize)] else []) ++
  (if a.hasInitPacketMagicHeader then
    [("h1", formatMagicHeaderInterval a.initPacketMagicHeader a.initPacketMagicHeaderMax)]
   else []) ++
  (if a.hasResponsePacketMagicHeader then
    [("h2", formatMagicHeaderInterval a.responsePacketMagicHeader a.responsePacketMagicHeaderMax)]
   else []) ++
  (if a.hasUnderloadPacketMagicHeader then
    [("h3", formatMagicHeaderInterval a.underloadPacketMagicHeader a.underloadPacketMagicHeaderMax)]
   else []) ++
  (if a.hasTransportPacketMagicHeader then
    [("h4", formatMagicHeaderInterval a.transportPacketMagicHeader a.transportPacketMagicHeaderMax)]
   else []) ++
  (match a.i1 with | some v => [("i1", v)] | none => []) ++
  (match a.i2 with | some v => [("i2", v)] | none => []) ++
  (match a.i3 with | some v => [("i3", v)] | none => []) ++
  (match a.i4 with | some v => [("i4", v)] | none => []) ++
  (match a.i5 with | some v => [("i5", v)] | none => [])

/-- The per-peer block of `CreateIPCRequest` (the heredoc plus the optional
endpoint and the allowed-ip lines, with the two defaults when none are
configured). -/
def peerIpcPairs (p : PeerConfig) : List (String × String) :=
  [("public_key", p.PublicKey),
   ("persistent_keepalive_interval", intRepr p.KeepAlive),
   ("preshared_key", p.PreSharedKey)] ++
  (match p.Endpoint with | some e => [("endpoint", e)] | none => []) ++
  (if p.AllowedIPs.isEmpty then [("allowed_ip", "0.0.0.0/0"), ("allowed_ip", "::0/0")]
   else p.AllowedIPs.map (fun ip => ("allowed_ip", ip)))

/-- `CreateIPCRequest`: the ordered `key=value` lines of the produced
`DeviceSetting.IpcRequest` text. -/
def CreateIPCRequest (conf : DeviceConfig) : List (String × String) :=
  [("private_key", conf.SecretKey)] ++
  (match conf.ListenPort with | some p => [("listen_port", intRepr p)] | none => []) ++
  (match conf.ASecConfig with | some a => aSecIpcPairs a | none => []) ++
  (conf.Peers.map peerIpcPairs).flatten

/-- The sixteen AmneziaWG IPC keys in their fixed emission order. -/
def awgKeys : List String :=
  ["jc", "jmin", "jmax", "s1", "s2", "s3", "s4",
   "h1", "h2", "h3", "h4", "i1", "i2", "i3", "i4", "i5"]

/-- Modelled from the spec: the value the IPC output must carry for AWG key
`k` (`some` exactly when the field is set; integers in decimal, H fields as
`N` for scalars and `N-M` for ranges, I fields verbatim). -/
def awgFieldValue (a : Option ASecConfigType) (k : String) : Option String :=
  match a with
  | none => none
  | some a =>
    if k = "jc" then (if a.hasJunkPacketCount then some (intRepr a.junkPacketCount) else none)
    else if k = "jmin" then (if a.hasJunkPacketMinSize then some (intRepr a.junkPacketMinSize) else none)
    else if k = "jmax" then (if a.hasJunkPacketMaxSize then some (intRepr a.junkPacketMaxSize) else none)
    else if k = "s1" then (if a.hasInitPacketJunkSize then some (intRepr a.initPacketJunkSize) else none)
    else if k = "s2" then (if a.hasResponsePacketJunkSize then some (intRepr a.responsePacketJunkSize) else none)
    else if k = "s3" then (if a.hasCookieReplyPacketJunkSize then some (intRepr a.cookieReplyPacketJunkSize) else none)
    else if k = "s4" then (if a.hasTransportPacketJunkSize then some (intRepr a.transportPacketJunkSize) else none)
    else if k = "h1" then
      (if a.hasInitPacketMagicHeader then
        some (formatMagicHeaderInterval a.initPacketMagicHeader a.initPacketMagicHeaderMax)
       else none)
    else if k = "h2" then
      (if a.hasResponsePacketMagicHeader then
        some (formatMagicHeaderInterval a.responsePacketMagicHeader a.responsePacketMagicHeaderMax)
       else none)
    else if k = "h3" then
      (if a.hasUnderloadPacketMagicHeader then
        some (formatMagicHeaderInterval a.underloadPacketMagicHeader a.underloadPacketMagicHeaderMax)
       else none)
    else if k = "h4" then
      (if a.hasTransportPacketMagicHeader then
        some (formatMagicHeaderInterval a.transportPacketMagicHeader a.transportPacketMagicHeaderMax)
       else none)
    else if k = "i1" then a.i1
    else if k = "i2" then a.i2
    else if k = "i3" then a.i3
    else if k = "i4" then a.i4
    else if k = "i5" then a.i5
    else none

/-! ## SOCKS5 UDP header parsing (socks5_udp.go)

Datagrams are byte lists (each element the value of one byte).  The Go
function renders IPv4/IPv6 hosts via `net.IP.String()` (external); we keep
the host structurally, distinguishing the three ATYP address forms. -/

/-- The host value returned by the SOCKS5 UDP header parser. -/
inductive Socks5Host where
  | ipv4 (a b c d : Nat)
  | domain (name : List Nat)
  | ipv6 (addr : List Nat)
deriving Repr, DecidableEq

/-- Models `binary.BigEndian.Uint16`. -/
def beUint16 (hi lo : Nat) : Nat := hi * 256 + lo

/-- `parseSocks5HeaderFast` from socks5_udp.go.  Returns
`some (host, port, headerLen)` on acceptance, `none` on rejection (the
caller then reads the payload as `data[headerLen:]`). -/
def parseSocks5HeaderFast (data : List Nat) : Option (Socks5Host × Nat × Nat) :=
  if data.length < 10 ∨ ¬ data.getD 0 0 = 0 ∨ ¬ data.getD 1 0 = 0 ∨ ¬ data.getD 2 0 = 0 then
    none
  else if data.getD 3 0 = 1 then
    if data.length < 10 then none
    else
      some (.ipv4 (data.getD 4 0) (data.getD 5 0) (data.getD 6 0) (data.getD 7 0),
            beUint16 (data.getD 8 0) (data.getD 9 0), 10)
  else if data.getD 3 0 = 3 then
    let domainLen := data.getD 4 0
    if data.length < 7 + domainLen then none
    else
      some (.domain ((data.drop 5).take domainLen),
            beUint16 (data.getD (5 + domainLen) 0) (data.getD (6 + domainLen) 0),
            7 + domainLen)
  else if data.getD 3 0 = 4 then
    if data.length < 22 then none
    else
      some (.ipv6 ((data.drop 4).take 16),
            beUint16 (data.getD 20 0) (data.getD 21 0), 22)
  else none

/-! ## UDP connection pool (socks5_udp.go)

The Go map is modelled as an association list scanned in list order (one
fixed iteration order).  Only the `lastUsed` field of `UDPConnection`
participates in pool accounting; the socket handle, client address and
reader channel are external effects (closing and shutdown signalling leave
no trace in the pool state beyond removal). -/

/-- The pool-relevant state of a `UDPConnection`. -/
structure UDPConnection where
  lastUsed : Int
deriving Repr, DecidableEq

/-- The pool-relevant state of a `UDPConnectionPool`. -/
structure UDPConnectionPool where
  connections : List (String × UDPConnection)
  maxSize : Int
  currentSize : Int
deriving Repr, DecidableEq

/-- Go map read `m[k]`. -/
def mapLookup (m : List (String × UDPConnection)) (k : String) : Option UDPConnection :=
  (m.find? (fun e => e.1 == k)).map (fun e => e.2)

/-- Go map write `m[k] = v` (overwrite in place, else append). -/
def mapInsert : List (String × UDPConnection) → String → UDPConnection →
    List (String × UDPConnection)
  | [], k, v => [(k, v)]
  | e :: rest, k, v => if e.1 == k then (k, v) :: rest else e :: mapInsert rest k v

/-- Go builtin `delete(m, k)`. -/
def mapDelete : List (String × UDPConnection) → String → List (String × UDPConnection)
  | [], _ => []
  | e :: rest, k => if e.1 == k then rest else e :: mapDelete rest k

/-- `NewUDPConnectionPool` (the DNS cache and MTU fields play no role in
pool accounting). -/
def NewUDPConnectionPool (maxSize : Int) : UDPConnectionPool :=
  { connections := [], maxSize := maxSize, currentSize := 0 }

/-- `Get` from socks5_udp.go: on a hit the entry's `lastUsed` is refreshed
to `now` through the shared pointer. -/
def UDPConnectionPool.Get (p : UDPConnectionPool) (key : String) (now : Int) :
    Option UDPConnection × UDPConnectionPool :=
  match mapLookup p.connections key with
  | some c => (some c, { p with connections := mapInsert p.connections key { c with lastUsed := now } })
  | none => (none, p)

/-- The inner loop of `cleanupOldestLocked`: replace the first buffered
candidate whose `lastUsed` the new entry's `lastUsed` is strictly before
(`conn.lastUsed.Before(p.connections[oldKey].lastUsed)`), then break. -/
def replaceOldestCandidate (conns : List (String × UDPConnection)) (t : Int) (key : String) :
    List String → List String
  | [] => []
  | oldKey :: rest =>
    if t < ((mapLookup conns oldKey).getD ⟨0⟩).lastUsed then key :: rest
    else oldKey :: replaceOldestCandidate conns t key rest

/-- The candidate-selection scan of `cleanupOldestLocked`: fill the buffer
up to `count` keys, then run the replacement loop per further entry. -/
def selectOldest (conns : List (String × UDPConnection)) (count : Nat) : List String :=
  conns.foldl
    (fun oldest e =>
      if oldest.length < count then oldest ++ [e.1]
      else replaceOldestCandidate conns e.2.lastUsed e.1 oldest)
    []

/-- The deletion loop shared by `cleanupOldestLocked` and
`cleanupOldLocked`: for each key still present, close the connection,
remove it from the map and decrement the size. -/
def deleteKeys (p : UDPConnectionPool) (keys : List String) : UDPConnectionPool :=
  keys.foldl
    (fun q k =>
      match mapLookup q.connections k with
      | some _ => { q with connections := mapDelete q.connections k,
                           currentSize := q.currentSize - 1 }
      | none => q)
    p

/-- `cleanupOldestLocked` from socks5_udp.go. -/
def UDPConnectionPool.cleanupOldestLocked (p : UDPConnectionPool) (count : Nat) :
    UDPConnectionPool :=
  if p.currentSize ≤ (count : Int) then p
  else deleteKeys p (selectOldest p.connections count)

/-- `Set` from socks5_udp.go: evict when at capacity, then insert with
`lastUsed = now` and increment the size. -/
def UDPConnectionPool.Set (p : UDPConnectionPool) (key : String) (conn : UDPConnection)
    (now : Int) : UDPConnectionPool :=
  let q := if p.currentSize ≥ p.maxSize then p.cleanupOldestLocked 5 else p
  { q with connections := mapInsert q.connections key { conn with lastUsed := now },
           currentSize := q.currentSize + 1 }

/-- `Delete` from socks5_udp.go. -/
def UDPConnectionPool.Delete (p : UDPConnectionPool) (key : String) : UDPConnectionPool :=
  match mapLookup p.connections key with
  | some _ => { p with connections := mapDelete p.connections key,
                       currentSize := p.currentSize - 1 }
  | none => p

/-- `cleanupOldLocked` from socks5_udp.go: collect the keys of entries with
`now - lastUsed > maxAge`, then run the deletion loop. -/
def UDPConnectionPool.cleanupOldLocked (p : UDPConnectionPool) (maxAge now : Int) :
    UDPConnectionPool :=
  deleteKeys p ((p.connections.filter (fun e => decide (now - e.2.lastUsed > maxAge))).map (fun e => e.1))

/-- `Cleanup` from socks5_udp.go. -/
def UDPConnectionPool.Cleanup (p : UDPConnectionPool) (maxAge now : Int) : UDPConnectionPool :=
  p.cleanupOldLocked maxAge now

/-- A pool operation together with the `time.Now()` value it observes. -/
inductive PoolOp where
  | get (key : String) (now : Int)
  | set (key : String) (conn : UDPConnection) (now : Int)
  | delete (key : String)
  | cleanup (maxAge : Int) (now : Int)
deriving Repr, DecidableEq

/-- One pool operation applied to the pool state. -/
def stepPool (p : UDPConnectionPool) : PoolOp → UDPConnectionPool
  | .get k now => (p.Get k now).2
  | .set k c now => p.Set k c now
  | .delete k => p.Delete k
  | .cleanup a now => p.Cleanup a now

/-- A run of pool operations from a given state. -/
def runPool (p : UDPConnectionPool) (ops : List PoolOp) : UDPConnectionPool :=
  ops.foldl stepPool p

/-- The size invariant of the pool: `currentSize` equals the cardinality of
the connections map. -/
def sizeInv (p : UDPConnectionPool) : Prop :=
  p.currentSize = (p.connections.length : Int)

/-- The property that every `set` in the sequence is applied to a key
absent from the pool at that moment. -/
def SetKeysFresh : UDPConnectionPool → List PoolOp → Prop
  | _, [] => True
  | p, op :: ops =>
    (match op with
     | .set k _ _ => mapLookup p.connections k = none
     | _ => True) ∧ SetKeysFresh (stepPool p op) ops

/-! ## DNS cache (socks5_udp.go)

`net.LookupIP` is external; `Resolve` takes its outcome for this call as
an oracle argument (it is consulted only on a cache miss or a stale
entry).  IP addresses are kept structurally: `To4() != nil` corresponds to
the `v4` constructor. -/

/-- An IP address as the DNS cache distinguishes it. -/
inductive IPAddr where
  | v4 (a b c d : Nat)
  | v6 (text : String)
deriving Repr, DecidableEq

/-- Models `candidate.To4() != nil`. -/
def IPAddr.isV4 : IPAddr → Bool
  | .v4 _ _ _ _ => true
  | .v6 _ => false

/-- A `cacheEntry` of the DNS cache. -/
structure cacheEntry where
  ip : IPAddr
  timestamp : Int
deriving Repr, DecidableEq

/-- The state of a `DNSCache`. -/
structure DNSCache where
  cache : List (String × cacheEntry)
  ttl : Int
deriving Repr, DecidableEq

/-- Go map read for the DNS cache. -/
def dnsLookupEntry (m : List (String × cacheEntry)) (host : String) : Option cacheEntry :=
  (m.find? (fun e => e.1 == host)).map (fun e => e.2)

/-- Go map write for the DNS cache. -/
def dnsInsertEntry : List (String × cacheEntry) → String → cacheEntry →
    List (String × cacheEntry)
  | [], k, v => [(k, v)]
  | e :: rest, k, v => if e.1 == k then (k, v) :: rest else e :: dnsInsertEntry rest k v

/-- The selection loop of `Resolve`: the first IPv4 candidate if any, else
the first result overall. -/
def selectResolvedIP (ips : List IPAddr) : IPAddr :=
  match ips.find? IPAddr.isV4 with
  | some ip => ip
  | none => ips.headD (.v6 "")

/-- `NewDNSCache` from socks5_udp.go. -/
def NewDNSCache (ttl : Int) : DNSCache := { cache := [], ttl := ttl }

/-- `Resolve` from socks5_udp.go: fresh cache hits are returned directly;
otherwise the lookup oracle is consulted, the selected address is cached
with timestamp `now` and returned.  `time.Since(ts) < ttl` is
`now - ts < ttl`. -/
def DNSCache.Resolve (d : DNSCache) (host : String) (now : Int)
    (lookupResult : Except String (List IPAddr)) : Except String IPAddr × DNSCache :=
  let hit : Option IPAddr :=
    match dnsLookupEntry d.cache host with
    | some entry => if now - entry.timestamp < d.ttl then some entry.ip else none
    | none => none
  match hit with
  | some ip => (.ok ip, d)
  | none =>
    match lookupResult with
    | .error e => (.error e, d)
    | .ok ips =>
      if ips.isEmpty then (.error "no IP found", d)
      else
        let ip := selectResolvedIP ips
        (.ok ip, { d with cache := dnsInsertEntry d.cache host ⟨ip, now⟩ })

/-- A config in which only (a subset of) S1..S4 is set. -/
def sOnlyConfig (b1 : Bool) (s1 : Int) (b2 : Bool) (s2 : Int)
    (b3 : Bool) (s3 : Int) (b4 : Bool) (s4 : Int) : ASecConfigType :=
  { initPacketJunkSize := s1, hasInitPacketJunkSize := b1,
    responsePacketJunkSize := s2, hasResponsePacketJunkSize := b2,
    cookieReplyPacketJunkSize := s3, hasCookieReplyPacketJunkSize := b3,
    transportPacketJunkSize := s4, hasTransportPacketJunkSize := b4 }

/-- The four packet-size sums restricted to the fields actually set. -/
def setSums (b1 : Bool) (s1 : Int) (b2 : Bool) (s2 : Int)
    (b3 : Bool) (s3 : Int) (b4 : Bool) (s4 : Int) : List Int :=
  (if b1 then [148 + s1] else []) ++ (if b2 then [92 + s2] else []) ++
  (if b3 then [64 + s3] else []) ++ (if b4 then [32 + s4] else [])

/-- C1: for a config in which only a subset of S1..S4 is set (each set
value in [0, 1280]) and no other AWG field is set, `ValidateASecConfig`
returns no error iff the sums 148+S1, 92+S2, 64+S3, 32+S4, restricted to
the fields actually set, are pairwise distinct. -/
theorem c1_packet_size_equation (b1 b2 b3 b4 : Bool) (s1 s2 s3 s4 : Int)
    (hs1 : b1 = true → 0 ≤ s1 ∧ s1 ≤ 1280) (hs2 : b2 = true → 0 ≤ s2 ∧ s2 ≤ 1280)
    (hs3 : b3 = true → 0 ≤ s3 ∧ s3 ≤ 1280) (hs4 : b4 = true → 0 ≤ s4 ∧ s4 ≤ 1280) :
    ValidateASecConfig (some (sOnlyConfig b1 s1 b2 s2 b3 s3 b4 s4)) = none ↔
      List.Pairwise (· ≠ ·) (setSums b1 s1 b2 s2 b3 s3 b4 s4) := by
  cases b1 <;> cases b2 <;> cases b3 <;> cases b4 <;>
    simp [ValidateASecConfig, sOnlyConfig, setSums, anyEqualSetPair, packetSizes,
      collectEffectiveHeaderIntervals, hasOverlappingHeaderIntervals,
      defaultInitPacketMagicHeader, defaultResponsePacketMagicHeader,
      defaultUnderloadPacketMagicHeader, defaultTransportPacketMagicHeader,
      List.pairwise_cons]

/-- C1 witness: a concrete instantiation (S1 = 0, S2 = 56 unset, S3 = 0,
S4 = 0 unset ... here all four set with distinct sums). -/
theorem c1_packet_size_equation_witness :
    ValidateASecConfig (some (sOnlyConfig true 1 true 2 true 3 true 4)) = none ↔
      List.Pairwise (· ≠ ·) (setSums true 1 true 2 true 3 true 4) :=
  c1_packet_size_equation true true true true 1 2 3 4
    (by decide) (by decide) (by decide) (by decide)

/-- The overlap loop reports a pair exactly when the intervals are not
pairwise non-overlapping. -/
lemma hasOverlapping_iff_not_pairwise (l : List headerInterval) :
    hasOverlappingHeaderIntervals l = true ↔
      ¬ List.Pairwise (fun a b => ¬ (a.min ≤ b.max ∧ b.min ≤ a.max)) l := by
  induction l with
  | nil => simp [hasOverlappingHeaderIntervals]
  | cons x rest ih =>
    simp only [hasOverlappingHeaderIntervals, List.pairwise_cons, Bool.or_eq_true,
      List.any_eq_true, Bool.and_eq_true, decide_eq_true_eq, ih]
    constructor
    · rintro (⟨y, hy, h1, h2⟩ | hrest) ⟨hhead, hp⟩
      · exact hhead y hy ⟨h1, h2⟩
      · exact hrest hp
    · intro hn
      by_cases hex : ∃ y ∈ rest, x.min ≤ y.max ∧ y.min ≤ x.max
      · exact Or.inl hex
      · refine Or.inr (fun hp => hn ⟨?_, hp⟩)
        intro y hy hov
        exact hex ⟨y, hy, hov⟩

/-- When the Jc/Jmin/Jmax checks pass, `ValidateASecConfig` reduces to the
packet-size and header checks. -/
lemma validate_reduce_junk (c : ASecConfigType)
    (hjc : c.hasJunkPacketCount = true → 1 ≤ c.junkPacketCount ∧ c.junkPacketCount ≤ 128)
    (hminmax : c.hasJunkPacketMinSize = true → c.hasJunkPacketMaxSize = true →
      c.junkPacketMinSize ≤ c.junkPacketMaxSize)
    (hmax : c.hasJunkPacketMaxSize = true → c.junkPacketMaxSize ≤ 1280) :
    ValidateASecConfig (some c) =
      (if anyEqualSetPair (packetSizes c) then
        if c.hasCookieReplyPacketJunkSize || c.hasTransportPacketJunkSize then
          some sizeCollisionLongError
        else some sizeCollisionShortError
      else if (collectEffectiveHeaderIntervals (some c)).any (fun iv => decide (iv.min > iv.max)) then
        some headerRangeError
      else if hasOverlappingHeaderIntervals (collectEffectiveHeaderIntervals (some c)) then
        some headerUniqueError
      else none) := by
  have e1 : (c.hasJunkPacketCount
      && (decide (c.junkPacketCount < 1) || decide (c.junkPacketCount > 128))) = false := by
    cases h : c.hasJunkPacketCount
    · simp
    · have := hjc h
      simp only [Bool.true_and, Bool.or_eq_false_iff, decide_eq_false_iff_not, not_lt, gt_iff_lt]
      omega
  have e2 : (c.hasJunkPacketMinSize && c.hasJunkPacketMaxSize
      && decide (c.junkPacketMinSize > c.junkPacketMaxSize)) = false := by
    cases h : c.hasJunkPacketMinSize
    · simp
    · cases h2 : c.hasJunkPacketMaxSize
      · simp
      · have := hminmax h h2
        simp only [Bool.true_and, decide_eq_false_iff_not, not_lt, gt_iff_lt]
        omega
  have e3 : (c.hasJunkPacketMaxSize && decide (c.junkPacketMaxSize > 1280)) = false := by
    cases h : c.hasJunkPacketMaxSize
    · simp
    · have := hmax h
      simp only [Bool.true_and, decide_eq_false_iff_not, not_lt, gt_iff_lt]
      omega
  simp only [ValidateASecConfig, e1, e2, e3, Bool.false_eq_true, if_false]

/-- C2 (amended): when the junk-field checks pass, no packet-size collision
exists and every effective interval has min ≤ max, `ValidateASecConfig`
returns the error "values of the H1-H4 fields must be unique" iff two
effective intervals overlap inclusively; the overlap test is symmetric in
the pair order, and the config with only H1=2 set is rejected with that
error because of the default H2=2. -/
theorem c2_header_overlap_amended (c : ASecConfigType)
    (hjc : c.hasJunkPacketCount = true → 1 ≤ c.junkPacketCount ∧ c.junkPacketCount ≤ 128)
    (hminmax : c.hasJunkPacketMinSize = true → c.hasJunkPacketMaxSize = true →
      c.junkPacketMinSize ≤ c.junkPacketMaxSize)
    (hmax : c.hasJunkPacketMaxSize = true → c.junkPacketMaxSize ≤ 1280)
    (hcol : anyEqualSetPair (packetSizes c) = false)
    (hrange : ∀ iv ∈ collectEffectiveHeaderIntervals (some c), iv.min ≤ iv.max) :
    (ValidateASecConfig (some c) = some headerUniqueError ↔
      ¬ List.Pairwise (fun a b => ¬ (a.min ≤ b.max ∧ b.min ≤ a.max))
        (collectEffectiveHeaderIntervals (some c))) ∧
    (∀ a b : headerInterval,
      (a.min ≤ b.max ∧ b.min ≤ a.max) ↔ (b.min ≤ a.max ∧ a.min ≤ b.max)) ∧
    ValidateASecConfig
      (some { initPacketMagicHeader := 2, initPacketMagicHeaderMax := 2,
              hasInitPacketMagicHeader := true }) = some headerUniqueError := by
  refine ⟨?_, fun a b => and_comm, by decide⟩
  rw [validate_reduce_junk c hjc hminmax hmax, hcol]
  have erange : (collectEffectiveHeaderIntervals (some c)).any
      (fun iv => decide (iv.min > iv.max)) = false := by
    simp only [List.any_eq_false, decide_eq_true_eq, not_lt, gt_iff_lt]
    exact hrange
  rw [erange]
  rw [← hasOverlapping_iff_not_pairwise]
  cases hov : hasOverlappingHeaderIntervals (collectEffectiveHeaderIntervals (some c)) <;>
    simp [headerUniqueError]

/-- C2 witness: the stated iff applied to the H1=2-only config, whose
effective intervals overlap the default H2=2. -/
theorem c2_header_overlap_amended_witness :
    ValidateASecConfig
        (some { initPacketMagicHeader := 2, initPacketMagicHeaderMax := 2,
                hasInitPacketMagicHeader := true }) = some headerUniqueError ↔
      ¬ List.Pairwise (fun a b => ¬ (a.min ≤ b.max ∧ b.min ≤ a.max))
        (collectEffectiveHeaderIntervals
          (some { initPacketMagicHeader := 2, initPacketMagicHeaderMax := 2,
                  hasInitPacketMagicHeader := true })) :=
  (c2_header_overlap_amended
    { initPacketMagicHeader := 2, initPacketMagicHeaderMax := 2,
      hasInitPacketMagicHeader := true }
    (by intro h; cases h) (by intro h; cases h) (by intro h; cases h)
    (by decide) (by decide)).1

/-- C2 counterexample: a config violating the Jc range and overlapping the
default H2 interval.  Two effective intervals overlap, yet the validator
does not return the H-uniqueness error (the Jc error wins), refuting the
claim's unconditional iff. -/
theorem c2_counterexample :
    (¬ List.Pairwise (fun a b => ¬ (a.min ≤ b.max ∧ b.min ≤ a.max))
      (collectEffectiveHeaderIntervals
        (some { junkPacketCount := 200, hasJunkPacketCount := true,
                initPacketMagicHeader := 2, initPacketMagicHeaderMax := 2,
                hasInitPacketMagicHeader := true }))) ∧
    ValidateASecConfig
      (some { junkPacketCount := 200, hasJunkPacketCount := true,
              initPacketMagicHeader := 2, initPacketMagicHeaderMax := 2,
              hasInitPacketMagicHeader := true }) ≠ some headerUniqueError := by
  constructor
  · decide
  · decide

/-- C3: when the junk-field checks pass and a packet-size collision is
detected, the error is the long form iff S3 or S4 is set, and the short
form otherwise — regardless of which pair of sums collided. -/
theorem c3_collision_message_form (c : ASecConfigType)
    (hjc : c.hasJunkPacketCount = true → 1 ≤ c.junkPacketCount ∧ c.junkPacketCount ≤ 128)
    (hminmax : c.hasJunkPacketMinSize = true → c.hasJunkPacketMaxSize = true →
      c.junkPacketMinSize ≤ c.junkPacketMaxSize)
    (hmax : c.hasJunkPacketMaxSize = true → c.junkPacketMaxSize ≤ 1280)
    (hcol : anyEqualSetPair (packetSizes c) = true) :
    (ValidateASecConfig (some c) = some sizeCollisionLongError ↔
      (c.hasCookieReplyPacketJunkSize || c.hasTransportPacketJunkSize) = true) ∧
    (ValidateASecConfig (some c) = some sizeCollisionShortError ↔
      (c.hasCookieReplyPacketJunkSize || c.hasTransportPacketJunkSize) = false) := by
  rw [validate_reduce_junk c hjc hminmax hmax, hcol]
  cases h34 : (c.hasCookieReplyPacketJunkSize || c.hasTransportPacketJunkSize) <;>
    simp [sizeCollisionLongError, sizeCollisionShortError]

/-- C3 witness: the configuration S1=8, S2=0, S3=92, S4=0 of the test
suite, whose (S1, S3) sums collide with S3 set, yields the long form. -/
theorem c3_collision_message_form_witness :
    ValidateASecConfig
        (some { initPacketJunkSize := 8, hasInitPacketJunkSize := true,
                responsePacketJunkSize := 0, hasResponsePacketJunkSize := true,
                cookieReplyPacketJunkSize := 92, hasCookieReplyPacketJunkSize := true,
                transportPacketJunkSize := 0, hasTransportPacketJunkSize := true })
      = some sizeCollisionLongError := by
  have h := (c3_collision_message_form
    { initPacketJunkSize := 8, hasInitPacketJunkSize := true,
      responsePacketJunkSize := 0, hasResponsePacketJunkSize := true,
      cookieReplyPacketJunkSize := 92, hasCookieReplyPacketJunkSize := true,
      transportPacketJunkSize := 0, hasTransportPacketJunkSize := true }
    (by intro h; cases h) (by intro h; cases h) (by intro h; cases h) (by decide)).1
  exact h.mpr (by decide)

/-! ## Decimal round-trip lemmas (for C4) -/

lemma decDigitChar_toNat (n : Nat) (h : n < 10) : (decDigitChar n).toNat = 48 + n := by
  interval_cases n <;> rfl

lemma decCharsAux_ne_nil (fuel : Nat) : ∀ n, n < fuel → decCharsAux fuel n ≠ [] := by
  induction fuel with
  | zero => intro n h; omega
  | succ fuel ih =>
    intro n h
    rw [decCharsAux]
    split
    · simp
    · simp

lemma decChars_ne_nil (n : Nat) : decChars n ≠ [] :=
  decCharsAux_ne_nil (n + 1) n (Nat.lt_succ_self n)

lemma decCharsAux_digits (fuel : Nat) :
    ∀ n, n < fuel → ∀ c ∈ decCharsAux fuel n, 48 ≤ c.toNat ∧ c.toNat ≤ 57 := by
  induction fuel with
  | zero => intro n h; omega
  | succ fuel ih =>
    intro n h c hc
    rw [decCharsAux] at hc
    by_cases h10 : n < 10
    · rw [if_pos h10] at hc
      simp only [List.mem_singleton] at hc
      subst hc
      rw [decDigitChar_toNat _ h10]
      omega
    · rw [if_neg h10] at hc
      rcases List.mem_append.mp hc with h1 | h2
      · exact ih (n / 10) (by omega) c h1
      · simp only [List.mem_singleton] at h2
        subst h2
        rw [decDigitChar_toNat _ (Nat.mod_lt _ (by omega))]
        have hm : n % 10 < 10 := Nat.mod_lt _ (by omega)
        omega

lemma decChars_digits (n : Nat) : ∀ c ∈ decChars n, 48 ≤ c.toNat ∧ c.toNat ≤ 57 :=
  decCharsAux_digits (n + 1) n (Nat.lt_succ_self n)

lemma decValueAux_cons (acc : Nat) (c : Char) (cs : List Char) :
    decValueAux acc (c :: cs) = decValueAux (acc * 10 + (c.toNat - 48)) cs := rfl

lemma decValueAux_append (acc : Nat) (l1 l2 : List Char) :
    decValueAux acc (l1 ++ l2) = decValueAux (decValueAux acc l1) l2 := by
  induction l1 generalizing acc with
  | nil => rfl
  | cons c cs ih =>
    rw [List.cons_append, decValueAux_cons, decValueAux_cons, ih]

lemma decValueAux_decCharsAux (fuel : Nat) : ∀ n, n < fuel → ∀ acc : Nat,
    decValueAux acc (decCharsAux fuel n) = acc * 10 ^ (decCharsAux fuel n).length + n := by
  induction fuel with
  | zero => intro n h; omega
  | succ fuel ih =>
    intro n h acc
    rw [decCharsAux]
    by_cases h10 : n < 10
    · rw [if_pos h10]
      rw [show decValueAux acc [decDigitChar n] = acc * 10 + ((decDigitChar n).toNat - 48) from rfl,
        decDigitChar_toNat _ h10, List.length_singleton, pow_one]
      omega
    · rw [if_neg h10]
      have hlt : n / 10 < fuel := by omega
      rw [decValueAux_append, ih (n / 10) hlt acc,
        show ∀ a : Nat, decValueAux a [decDigitChar (n % 10)]
          = a * 10 + ((decDigitChar (n % 10)).toNat - 48) from fun a => rfl,
        decDigitChar_toNat _ (Nat.mod_lt _ (by omega)),
        List.length_append, List.length_singleton]
      have hmod : n % 10 < 10 := Nat.mod_lt _ (by omega)
      have hdm : 10 * (n / 10) + n % 10 = n := by omega
      calc (acc * 10 ^ (decCharsAux fuel (n / 10)).length + n / 10) * 10 + (48 + n % 10 - 48)
          = acc * (10 ^ (decCharsAux fuel (n / 10)).length * 10) + (10 * (n / 10) + n % 10) := by
            ring_nf; omega
        _ = acc * 10 ^ ((decCharsAux fuel (n / 10)).length + 1) + n := by rw [pow_succ, hdm]

lemma decValueAux_decChars (n : Nat) : ∀ acc : Nat,
    decValueAux acc (decChars n) = acc * 10 ^ (decChars n).length + n :=
  decValueAux_decCharsAux (n + 1) n (Nat.lt_succ_self n)

lemma parseUint32_decChars (n : Nat) (h : n < 2 ^ 32) : parseUint32 (decChars n) = .ok n := by
  have hne : decChars n ≠ [] := decChars_ne_nil n
  have hdig : (decChars n).all isDecDigit = true := by
    rw [List.all_eq_true]
    intro c hc
    have := decChars_digits n c hc
    simp only [isDecDigit, Bool.and_eq_true, decide_eq_true_eq]
    omega
  have hval : decValueAux 0 (decChars n) = n := by
    rw [decValueAux_decChars]
    ring
  rw [parseUint32]
  simp only [List.isEmpty_eq_true, hne, if_false, hdig, if_true, hval, h, if_pos]

lemma dash_not_mem_decChars (n : Nat) : '-' ∉ decChars n := by
  intro h
  have hb := decChars_digits n _ h
  have h45 : ('-').toNat = 45 := rfl
  omega

lemma not_whitespace_of_decChars (n : Nat) : ∀ c ∈ decChars n, ¬ c.isWhitespace := by
  intro c hc hw
  have hb := decChars_digits n c hc
  have h1 : ¬ c = ' ' := fun e => by rw [e] at hb; exact absurd hb (by decide)
  have h2 : ¬ c = '\t' := fun e => by rw [e] at hb; exact absurd hb (by decide)
  have h3 : ¬ c = '\r' := fun e => by rw [e] at hb; exact absurd hb (by decide)
  have h4 : ¬ c = '\n' := fun e => by rw [e] at hb; exact absurd hb (by decide)
  have hfalse : c.isWhitespace = false := by
    unfold Char.isWhitespace
    rw [decide_eq_false h1, decide_eq_false h2, decide_eq_false h3, decide_eq_false h4]
    rfl
  simp [hfalse] at hw

lemma dropWhile_eq_self_of_none (p : Char → Bool) (l : List Char)
    (h : ∀ c ∈ l, ¬ p c) : l.dropWhile p = l := by
  cases l with
  | nil => rfl
  | cons c cs =>
    rw [List.dropWhile_cons]
    simp [h c (List.mem_cons_self c cs)]

lemma trimSpace_eq_self (l : List Char) (h : ∀ c ∈ l, ¬ c.isWhitespace) :
    trimSpace l = l := by
  rw [trimSpace, dropWhile_eq_self_of_none _ _ h,
    dropWhile_eq_self_of_none _ _ (by intro c hc; exact h c (List.mem_reverse.mp hc)),
    List.reverse_reverse]

lemma splitOnDash_of_no_dash (l : List Char) (h : '-' ∉ l) : splitOnDash l = [l] := by
  induction l with
  | nil => rfl
  | cons c cs ih =>
    have hc : ¬ c = '-' := fun e => h (by simp [e])
    have hcs : '-' ∉ cs := fun e => h (List.mem_cons_of_mem _ e)
    rw [splitOnDash]
    simp only [hc, if_false, ih hcs]

lemma splitOnDash_append_dash (l1 l2 : List Char) (h : '-' ∉ l1) :
    splitOnDash (l1 ++ '-' :: l2) = l1 :: splitOnDash l2 := by
  induction l1 with
  | nil => simp [splitOnDash]
  | cons c cs ih =>
    have hc : ¬ c = '-' := fun e => h (by simp [e])
    have hcs : '-' ∉ cs := fun e => h (List.mem_cons_of_mem _ e)
    rw [List.cons_append, splitOnDash]
    simp only [hc, if_false, ih hcs]

lemma isEmpty_decChars (n : Nat) : (decChars n).isEmpty = false := by
  cases e : decChars n with
  | nil => exact absurd e (decChars_ne_nil n)
  | cons c cs => rfl

/-- Parsing the canonical decimal literal of `n < 2^32` yields the scalar
interval `[n, n]`. -/
lemma parseMagicHeaderInterval_scalar (n : Nat) (h : n < 2 ^ 32) :
    parseMagicHeaderInterval (decimalRepr n) = .ok (n, n) := by
  have htrim : trimSpace (decimalRepr n).data = decChars n :=
    trimSpace_eq_self _ (not_whitespace_of_decChars n)
  have hsplit : splitOnDash (decChars n) = [decChars n] :=
    splitOnDash_of_no_dash _ (dash_not_mem_decChars n)
  simp only [parseMagicHeaderInterval, htrim, isEmpty_decChars, Bool.false_eq_true, if_false,
    hsplit, parseUint32_decChars n h]
  simp

/-- Parsing the canonical decimal range literal of `n ≤ m`, both below
`2^32`, yields the interval `[n, m]`. -/
lemma parseMagicHeaderInterval_range (n m : Nat) (hn : n < 2 ^ 32) (hm : m < 2 ^ 32)
    (hle : n ≤ m) :
    parseMagicHeaderInterval (decimalRepr n ++ "-" ++ decimalRepr m) = .ok (n, m) := by
  have hdata : (decimalRepr n ++ "-" ++ decimalRepr m).data = decChars n ++ '-' :: decChars m := by
    simp [decimalRepr, String.data_append]
  have hnw : ∀ c ∈ decChars n ++ '-' :: decChars m, ¬ c.isWhitespace := by
    intro c hc
    rcases List.mem_append.mp hc with h1 | h2
    · exact not_whitespace_of_decChars n c h1
    · rcases List.mem_cons.mp h2 with h3 | h4
      · subst h3; decide
      · exact not_whitespace_of_decChars m c h4
  have htrim : trimSpace (decimalRepr n ++ "-" ++ decimalRepr m).data
      = decChars n ++ '-' :: decChars m := by
    rw [hdata]; exact trimSpace_eq_self _ hnw
  have hsplit : splitOnDash (decChars n ++ '-' :: decChars m) = [decChars n, decChars m] := by
    rw [splitOnDash_append_dash _ _ (dash_not_mem_decChars n),
      splitOnDash_of_no_dash _ (dash_not_mem_decChars m)]
  have hempty : (decChars n ++ '-' :: decChars m).isEmpty = false := by
    cases e : decChars n ++ '-' :: decChars m with
    | nil => exact absurd (List.append_eq_nil.mp e).2 (by simp)
    | cons c cs => rfl
  have hnlt : ¬ m < n := by omega
  simp only [parseMagicHeaderInterval, htrim, hempty, Bool.false_eq_true, if_false, hsplit,
    isEmpty_decChars, parseUint32_decChars n hn, parseUint32_decChars m hm]
  simp [hnlt]

/-- C4 (amended): parse-then-emit is the identity on canonical decimal
scalar literals and on canonical range literals with a strictly smaller
lower bound. -/
theorem c4_header_roundtrip_amended (n m : Nat) (hn : n < 2 ^ 32) (hm : m < 2 ^ 32)
    (hlt : n < m) :
    (parseMagicHeaderInterval (decimalRepr n)).map
        (fun p => formatMagicHeaderInterval p.1 p.2) = .ok (decimalRepr n) ∧
    (parseMagicHeaderInterval (decimalRepr n ++ "-" ++ decimalRepr m)).map
        (fun p => formatMagicHeaderInterval p.1 p.2)
      = .ok (decimalRepr n ++ "-" ++ decimalRepr m) := by
  constructor
  · rw [parseMagicHeaderInterval_scalar n hn]
    simp [Except.map, formatMagicHeaderInterval]
  · rw [parseMagicHeaderInterval_range n m hn hm (le_of_lt hlt)]
    have hne : n ≠ m := Nat.ne_of_lt hlt
    simp [Except.map, formatMagicHeaderInterval, hne]

/-- C4 witness: the round trip at the concrete literals 100 and 100-101. -/
theorem c4_header_roundtrip_amended_witness :
    (parseMagicHeaderInterval (decimalRepr 100)).map
        (fun p => formatMagicHeaderInterval p.1 p.2) = .ok (decimalRepr 100) ∧
    (parseMagicHeaderInterval (decimalRepr 100 ++ "-" ++ decimalRepr 101)).map
        (fun p => formatMagicHeaderInterval p.1 p.2)
      = .ok (decimalRepr 100 ++ "-" ++ decimalRepr 101) :=
  c4_header_roundtrip_amended 100 101 (by decide) (by decide) (by decide)

/-- C4 counterexample: the range literal "5-5" has N ≤ M, yet parse then
emit returns the scalar literal "5", not the original literal. -/
theorem c4_counterexample :
    (parseMagicHeaderInterval "5-5").map (fun p => formatMagicHeaderInterval p.1 p.2)
        = .ok "5" ∧ ("5" : String) ≠ "5-5" := by
  exact ⟨rfl, by decide⟩

/-! ## C10: parsed configs have well-ordered effective intervals -/

/-- Every interval `parseMagicHeaderInterval` accepts satisfies min ≤ max. -/
lemma parseMagicHeaderInterval_min_le_max (s : String) (mn mx : Nat)
    (h : parseMagicHeaderInterval s = .ok (mn, mx)) : mn ≤ mx := by
  simp only [parseMagicHeaderInterval] at h
  split at h
  · exact absurd h (by simp)
  · split at h
    · exact absurd h (by simp)
    · split at h
      · exact absurd h (by simp)
      · split at h
        · exact absurd h (by simp)
        · split at h
          · rw [Except.ok.injEq, Prod.mk.injEq] at h
            omega
          · split at h
            · exact absurd h (by simp)
            · split at h
              · exact absurd h (by simp)
              · split at h
                · exact absurd h (by simp)
                · rename_i hgt
                  rw [Except.ok.injEq, Prod.mk.injEq] at h
                  simp only [gt_iff_lt, not_lt] at hgt
                  omega

/-- Successful `Except` bind inverts into a successful step and a
successful continuation. -/
lemma exceptBind_ok_inv {α β : Type} {x : Except String α} {f : α → Except String β} {b : β}
    (h : (x >>= f) = .ok b) : ∃ a, x = .ok a ∧ f a = .ok b := by
  cases x with
  | error e => exact absurd h (by simp [Bind.bind, Except.bind])
  | ok a => exact ⟨a, rfl, by simpa [Bind.bind, Except.bind] using h⟩

/-- The set magic-header intervals of a config are well ordered. -/
def headerBoundsOK : Option ASecConfigType → Prop
  | none => True
  | some c =>
    (c.hasInitPacketMagicHeader = true →
      c.initPacketMagicHeader ≤ c.initPacketMagicHeaderMax) ∧
    (c.hasResponsePacketMagicHeader = true →
      c.responsePacketMagicHeader ≤ c.responsePacketMagicHeaderMax) ∧
    (c.hasUnderloadPacketMagicHeader = true →
      c.underloadPacketMagicHeader ≤ c.underloadPacketMagicHeaderMax) ∧
    (c.hasTransportPacketMagicHeader = true →
      c.transportPacketMagicHeader ≤ c.transportPacketMagicHeaderMax)

lemma headerBoundsOK_ensureConfig (cfg : Option ASecConfigType) (h : headerBoundsOK cfg) :
    headerBoundsOK (some (ensureConfig cfg)) := by
  cases cfg with
  | none => exact ⟨by simp [ensureConfig], by simp [ensureConfig],
      by simp [ensureConfig], by simp [ensureConfig]⟩
  | some c => exact h

lemma headerBoundsOK_parseJunkFields (sec : AwgSectionValues) :
    headerBoundsOK (parseJunkFields sec) := by
  unfold parseJunkFields
  cases sec.jc <;> cases sec.jmin <;> cases sec.jmax <;> cases sec.s1 <;>
    cases sec.s2 <;> cases sec.s3 <;> cases sec.s4 <;>
    simp [applyIntField, ensureConfig, headerBoundsOK]

/-- `applyHeaderField` preserves well-ordered header bounds whenever the
setter installs the parsed (hence ordered) interval. -/
lemma headerBoundsOK_applyHeaderField (cfg out : Option ASecConfigType) (v : Option String)
    (setter : ASecConfigType → Nat → Nat → ASecConfigType)
    (hset : ∀ a mn mx, headerBoundsOK (some a) → mn ≤ mx →
      headerBoundsOK (some (setter a mn mx)))
    (hok : headerBoundsOK cfg)
    (h : applyHeaderField cfg v setter = .ok out) : headerBoundsOK out := by
  cases v with
  | none =>
    simp only [applyHeaderField] at h
    rw [Except.ok.injEq] at h
    subst h
    exact hok
  | some s =>
    simp only [applyHeaderField] at h
    cases hp : parseMagicHeaderInterval s with
    | error e => rw [hp] at h; exact absurd h (by simp)
    | ok p =>
      rw [hp] at h
      rw [Except.ok.injEq] at h
      subst h
      exact hset _ p.1 p.2 (headerBoundsOK_ensureConfig cfg hok)
        (parseMagicHeaderInterval_min_le_max s p.1 p.2 hp)

lemma headerBoundsOK_parseHeaderFields (cfg out : Option ASecConfigType)
    (sec : AwgSectionValues) (hok : headerBoundsOK cfg)
    (h : parseHeaderFields cfg sec = .ok out) : headerBoundsOK out := by
  simp only [parseHeaderFields] at h
  obtain ⟨c1, e1, h⟩ := exceptBind_ok_inv h
  try dsimp only at h
  obtain ⟨c2, e2, h⟩ := exceptBind_ok_inv h
  try dsimp only at h
  obtain ⟨c3, e3, h⟩ := exceptBind_ok_inv h
  try dsimp only at h
  have k1 := headerBoundsOK_applyHeaderField _ _ _ setH1
    (fun a mn mx hk hle => ⟨fun _ => hle, hk.2.1, hk.2.2.1, hk.2.2.2⟩) hok e1
  have k2 := headerBoundsOK_applyHeaderField _ _ _ setH2
    (fun a mn mx hk hle => ⟨hk.1, fun _ => hle, hk.2.2.1, hk.2.2.2⟩) k1 e2
  have k3 := headerBoundsOK_applyHeaderField _ _ _ setH3
    (fun a mn mx hk hle => ⟨hk.1, hk.2.1, fun _ => hle, hk.2.2.2⟩) k2 e3
  exact headerBoundsOK_applyHeaderField _ _ _ setH4
    (fun a mn mx hk hle => ⟨hk.1, hk.2.1, hk.2.2.1, fun _ => hle⟩) k3 h

lemma headerBoundsOK_applyStrField (cfg : Option ASecConfigType) (v : Option String)
    (setter : ASecConfigType → String → ASecConfigType)
    (hset : ∀ a s, headerBoundsOK (some a) → headerBoundsOK (some (setter a s)))
    (hok : headerBoundsOK cfg) : headerBoundsOK (applyStrField cfg v setter) := by
  cases v with
  | none => exact hok
  | some s => exact hset _ s (headerBoundsOK_ensureConfig cfg hok)

lemma headerBoundsOK_parseIFields (cfg : Option ASecConfigType) (sec : AwgSectionValues)
    (hok : headerBoundsOK cfg) : headerBoundsOK (parseIFields cfg sec) := by
  unfold parseIFields
  exact headerBoundsOK_applyStrField _ sec.i5 _ (fun a s hk => hk)
    (headerBoundsOK_applyStrField _ sec.i4 _ (fun a s hk => hk)
      (headerBoundsOK_applyStrField _ sec.i3 _ (fun a s hk => hk)
        (headerBoundsOK_applyStrField _ sec.i2 _ (fun a s hk => hk)
          (headerBoundsOK_applyStrField _ sec.i1 _ (fun a s hk => hk) hok))))

lemma collect_min_le_max (cfg : Option ASecConfigType) (hok : headerBoundsOK cfg) :
    ∀ iv ∈ collectEffectiveHeaderIntervals cfg, iv.min ≤ iv.max := by
  intro iv hiv
  cases cfg with
  | none =>
    simp only [collectEffectiveHeaderIntervals, List.mem_cons, List.not_mem_nil,
      or_false] at hiv
    rcases hiv with h | h | h | h <;>
      (subst h; simp [defaultInitPacketMagicHeader, defaultResponsePacketMagicHeader,
        defaultUnderloadPacketMagicHeader, defaultTransportPacketMagicHeader])
  | some c =>
    obtain ⟨h1, h2, h3, h4⟩ := hok
    simp only [collectEffectiveHeaderIntervals, List.mem_cons, List.not_mem_nil,
      or_false] at hiv
    rcases hiv with h | h | h | h
    · subst h
      by_cases hs : c.hasInitPacketMagicHeader = true
      · simp only [hs, if_true]; exact h1 hs
      · simp only [hs, if_false]; simp [defaultInitPacketMagicHeader]
    · subst h
      by_cases hs : c.hasResponsePacketMagicHeader = true
      · simp only [hs, if_true]; exact h2 hs
      · simp only [hs, if_false]; simp [defaultResponsePacketMagicHeader]
    · subst h
      by_cases hs : c.hasUnderloadPacketMagicHeader = true
      · simp only [hs, if_true]; exact h3 hs
      · simp only [hs, if_false]; simp [defaultUnderloadPacketMagicHeader]
    · subst h
      by_cases hs : c.hasTransportPacketMagicHeader = true
      · simp only [hs, if_true]; exact h4 hs
      · simp only [hs, if_false]; simp [defaultTransportPacketMagicHeader]

/-- C10: every config accepted by `ParseASecConfig` has effective header
intervals with min ≤ max, so the "invalid magic header range" branch of
`ValidateASecConfig` is unreachable for parsed configs. -/
theorem c10_parsed_intervals_ordered (sec : AwgSectionValues) (cfg : Option ASecConfigType)
    (h : ParseASecConfig sec = .ok cfg) :
    (∀ iv ∈ collectEffectiveHeaderIntervals cfg, iv.min ≤ iv.max) ∧
    (collectEffectiveHeaderIntervals cfg).any (fun iv => decide (iv.min > iv.max)) = false := by
  have hmain : ∀ iv ∈ collectEffectiveHeaderIntervals cfg, iv.min ≤ iv.max := by
    simp only [ParseASecConfig] at h
    obtain ⟨cfgH, e1, h⟩ := exceptBind_ok_inv h
    try dsimp only at h
    have hok : headerBoundsOK (parseIFields cfgH sec) :=
      headerBoundsOK_parseIFields cfgH sec
        (headerBoundsOK_parseHeaderFields (parseJunkFields sec) cfgH sec
          (headerBoundsOK_parseJunkFields sec) e1)
    split at h
    · exact absurd h (by simp)
    · rw [Except.ok.injEq] at h
      subst h
      exact collect_min_le_max _ hok
  refine ⟨hmain, ?_⟩
  simp only [List.any_eq_false, decide_eq_true_eq, not_lt, gt_iff_lt]
  exact hmain

/-- C10 witness: the parsed test configuration with header ranges
H1=100-101, H2=102-103, H3=104, H4=105-106 triggers no min > max interval. -/
theorem c10_parsed_intervals_ordered_witness :
    (collectEffectiveHeaderIntervals
        (some { initPacketMagicHeader := 100, initPacketMagicHeaderMax := 101,
                hasInitPacketMagicHeader := true,
                responsePacketMagicHeader := 102, responsePacketMagicHeaderMax := 103,
                hasResponsePacketMagicHeader := true,
                underloadPacketMagicHeader := 104, underloadPacketMagicHeaderMax := 104,
                hasUnderloadPacketMagicHeader := true,
                transportPacketMagicHeader := 105, transportPacketMagicHeaderMax := 106,
                hasTransportPacketMagicHeader := true })).any
      (fun iv => decide (iv.min > iv.max)) = false :=
  (c10_parsed_intervals_ordered
    { h1 := some "100-101", h2 := some "102-103", h3 := some "104", h4 := some "105-106" }
    (some { initPacketMagicHeader := 100, initPacketMagicHeaderMax := 101,
            hasInitPacketMagicHeader := true,
            responsePacketMagicHeader := 102, responsePacketMagicHeaderMax := 103,
            hasResponsePacketMagicHeader := true,
            underloadPacketMagicHeader := 104, underloadPacketMagicHeaderMax := 104,
            hasUnderloadPacketMagicHeader := true,
            transportPacketMagicHeader := 105, transportPacketMagicHeaderMax := 106,
            hasTransportPacketMagicHeader := true })
    (by rfl)).2

/-! ## C5: IPC gating, order and formats -/

/-- The filter selecting AmneziaWG-keyed lines. -/
def isAwgPair (p : String × String) : Bool := awgKeys.contains p.1

lemma filter_awg_ite_singleton (b : Bool) (k v : String) (h : isAwgPair (k, v) = true) :
    (if b then [(k, v)] else []).filter isAwgPair = (if b then [(k, v)] else []) := by
  cases b
  · rfl
  · simp [List.filter_cons, h]

lemma filter_awg_opt_singleton (o : Option String) (k : String)
    (h : ∀ v, isAwgPair (k, v) = true) :
    (match o with | some v => [(k, v)] | none => []).filter isAwgPair
      = (match o with | some v => [(k, v)] | none => []) := by
  cases o with
  | none => rfl
  | some v => simp [List.filter_cons, h v]

/-- The AmneziaWG block survives the AWG filter unchanged. -/
lemma filter_awg_aSecIpcPairs (a : ASecConfigType) :
    (aSecIpcPairs a).filter isAwgPair = aSecIpcPairs a := by
  simp only [aSecIpcPairs, List.filter_append]
  rw [filter_awg_ite_singleton _ "jc" _ rfl, filter_awg_ite_singleton _ "jmin" _ rfl,
    filter_awg_ite_singleton _ "jmax" _ rfl, filter_awg_ite_singleton _ "s1" _ rfl,
    filter_awg_ite_singleton _ "s2" _ rfl, filter_awg_ite_singleton _ "s3" _ rfl,
    filter_awg_ite_singleton _ "s4" _ rfl, filter_awg_ite_singleton _ "h1" _ rfl,
    filter_awg_ite_singleton _ "h2" _ rfl, filter_awg_ite_singleton _ "h3" _ rfl,
    filter_awg_ite_singleton _ "h4" _ rfl,
    filter_awg_opt_singleton _ "i1" (fun v => rfl),
    filter_awg_opt_singleton _ "i2" (fun v => rfl),
    filter_awg_opt_singleton _ "i3" (fun v => rfl),
    filter_awg_opt_singleton _ "i4" (fun v => rfl),
    filter_awg_opt_singleton _ "i5" (fun v => rfl)]

/-- Peer blocks contribute no AmneziaWG-keyed lines. -/
lemma filter_awg_peerIpcPairs (p : PeerConfig) :
    (peerIpcPairs p).filter isAwgPair = [] := by
  simp only [peerIpcPairs, List.filter_append]
  have h1 : List.filter isAwgPair
      [("public_key", p.PublicKey), ("persistent_keepalive_interval", intRepr p.KeepAlive),
       ("preshared_key", p.PreSharedKey)] = [] := rfl
  have h2 : (match p.Endpoint with | some e => [("endpoint", e)] | none => []).filter
      isAwgPair = [] := by
    cases p.Endpoint <;> rfl
  have hmap : ∀ l : List String,
      (l.map (fun ip => ("allowed_ip", ip))).filter isAwgPair = [] := by
    intro l
    induction l with
    | nil => rfl
    | cons x xs ih =>
      rw [List.map_cons, List.filter_cons,
        show isAwgPair ("allowed_ip", x) = false from rfl]
      simp only [Bool.false_eq_true, if_false]
      exact ih
  have h3 : (if p.AllowedIPs.isEmpty then
        [("allowed_ip", "0.0.0.0/0"), ("allowed_ip", "::0/0")]
      else p.AllowedIPs.map (fun ip => ("allowed_ip", ip))).filter isAwgPair = [] := by
    cases he : p.AllowedIPs.isEmpty
    · simp only [Bool.false_eq_true, if_false]
      exact hmap p.AllowedIPs
    · rfl
  rw [h1, h2, h3]
  rfl

lemma filter_awg_peers (ps : List PeerConfig) :
    ((ps.map peerIpcPairs).flatten).filter isAwgPair = [] := by
  induction ps with
  | nil => rfl
  | cons p rest ih =>
    simp only [List.map_cons, List.flatten_cons, List.filter_append,
      filter_awg_peerIpcPairs, ih, List.nil_append]

lemma filterMap_cons_toList {α β : Type} (f : α → Option β) (x : α) (xs : List α) :
    List.filterMap f (x :: xs) = (f x).toList ++ List.filterMap f xs := by
  cases h : f x <;> simp [List.filterMap_cons, h]

lemma toList_map_ite (b : Bool) (v : String) (g : String → String × String) :
    ((if b then some v else none).map g).toList = if b then [g v] else [] := by
  cases b <;> rfl

lemma toList_map_opt (o : Option String) (g : String → String × String) :
    (o.map g).toList = match o with | some v => [g v] | none => [] := by
  cases o <;> rfl

lemma match_ite_pairs (b : Bool) (x k : String) :
    (match (if b then some x else none) with
      | some v => [(k, v)] | none => ([] : List (String × String)))
      = if b then [(k, x)] else [] := by
  cases b <;> rfl

/-- The spec-side AWG block: one pair per key of `awgKeys`, carrying
`awgFieldValue`. -/
def awgSpecPairs (a : Option ASecConfigType) : List (String × String) :=
  awgKeys.filterMap (fun k => (awgFieldValue a k).map (fun v => (k, v)))

/-- The source's AWG block equals the spec-side block. -/
lemma aSecIpcPairs_eq_awgSpecPairs (a : ASecConfigType) :
    aSecIpcPairs a = awgSpecPairs (some a) := by
  simp only [awgSpecPairs, awgKeys, filterMap_cons_toList, List.filterMap_nil,
    show awgFieldValue (some a) "jc"
      = (if a.hasJunkPacketCount then some (intRepr a.junkPacketCount) else none) from rfl,
    show awgFieldValue (some a) "jmin"
      = (if a.hasJunkPacketMinSize then some (intRepr a.junkPacketMinSize) else none) from rfl,
    show awgFieldValue (some a) "jmax"
      = (if a.hasJunkPacketMaxSize then some (intRepr a.junkPacketMaxSize) else none) from rfl,
    show awgFieldValue (some a) "s1"
      = (if a.hasInitPacketJunkSize then some (intRepr a.initPacketJunkSize) else none) from rfl,
    show awgFieldValue (some a) "s2"
      = (if a.hasResponsePacketJunkSize then some (intRepr a.responsePacketJunkSize) else none)
      from rfl,
    show awgFieldValue (some a) "s3"
      = (if a.hasCookieReplyPacketJunkSize then some (intRepr a.cookieReplyPacketJunkSize)
         else none) from rfl,
    show awgFieldValue (some a) "s4"
      = (if a.hasTransportPacketJunkSize then some (intRepr a.transportPacketJunkSize) else none)
      from rfl,
    show awgFieldValue (some a) "h1"
      = (if a.hasInitPacketMagicHeader then
          some (formatMagicHeaderInterval a.initPacketMagicHeader a.initPacketMagicHeaderMax)
         else none) from rfl,
    show awgFieldValue (some a) "h2"
      = (if a.hasResponsePacketMagicHeader then
          some (formatMagicHeaderInterval a.responsePacketMagicHeader
            a.responsePacketMagicHeaderMax)
         else none) from rfl,
    show awgFieldValue (some a) "h3"
      = (if a.hasUnderloadPacketMagicHeader then
          some (formatMagicHeaderInterval a.underloadPacketMagicHeader
            a.underloadPacketMagicHeaderMax)
         else none) from rfl,
    show awgFieldValue (some a) "h4"
      = (if a.hasTransportPacketMagicHeader then
          some (formatMagicHeaderInterval a.transportPacketMagicHeader
            a.transportPacketMagicHeaderMax)
         else none) from rfl,
    show awgFieldValue (some a) "i1" = a.i1 from rfl,
    show awgFieldValue (some a) "i2" = a.i2 from rfl,
    show awgFieldValue (some a) "i3" = a.i3 from rfl,
    show awgFieldValue (some a) "i4" = a.i4 from rfl,
    show awgFieldValue (some a) "i5" = a.i5 from rfl,
    toList_map_ite, toList_map_opt]
  simp only [match_ite_pairs]
  simp only [aSecIpcPairs, List.append_assoc, List.append_nil]

/-- The AWG-keyed lines of the whole request are exactly the spec block. -/
lemma filter_awg_createIPCRequest (conf : DeviceConfig) :
    (CreateIPCRequest conf).filter isAwgPair = awgSpecPairs conf.ASecConfig := by
  simp only [CreateIPCRequest, List.filter_append, filter_awg_peers, List.append_nil]
  have h0 : List.filter isAwgPair [("private_key", conf.SecretKey)] = [] := rfl
  have h1 : (match conf.ListenPort with
      | some p => [("listen_port", intRepr p)] | none => []).filter isAwgPair = [] := by
    cases conf.ListenPort <;> rfl
  rw [h0, h1]
  cases ha : conf.ASecConfig with
  | none => rfl
  | some a =>
    simp only [List.nil_append, List.append_nil]
    rw [filter_awg_aSecIpcPairs, aSecIpcPairs_eq_awgSpecPairs]

/-- C5: the AWG-keyed `key=value` lines of the IPC request are exactly the
set fields, in the fixed order jc..i5 with their prescribed formats; in
particular an AWG key occurs in the request iff its field is set. -/
theorem c5_ipc_gating_order (conf : DeviceConfig) :
    (CreateIPCRequest conf).filter isAwgPair
        = awgKeys.filterMap (fun k => (awgFieldValue conf.ASecConfig k).map (fun v => (k, v))) ∧
    ∀ k, awgKeys.contains k = true →
      ((∃ v, (k, v) ∈ CreateIPCRequest conf) ↔ (awgFieldValue conf.ASecConfig k).isSome) := by
  have hfilter := filter_awg_createIPCRequest conf
  refine ⟨hfilter, ?_⟩
  intro k hk
  constructor
  · rintro ⟨v, hv⟩
    have hmem : (k, v) ∈ (CreateIPCRequest conf).filter isAwgPair :=
      List.mem_filter.mpr ⟨hv, hk⟩
    rw [hfilter] at hmem
    obtain ⟨k2, hk2, hmap⟩ := List.mem_filterMap.mp hmem
    cases hval : awgFieldValue conf.ASecConfig k2 with
    | none => rw [hval] at hmap; exact absurd hmap (by simp)
    | some w =>
      rw [hval] at hmap
      simp at hmap
      rw [← hmap.1, hval]
      rfl
  · intro hsome
    obtain ⟨v, hv⟩ := Option.isSome_iff_exists.mp hsome
    refine ⟨v, ?_⟩
    have hmem : (k, v) ∈ (CreateIPCRequest conf).filter isAwgPair := by
      rw [hfilter]
      exact List.mem_filterMap.mpr ⟨k, List.elem_iff.mp hk, by rw [hv]; rfl⟩
    exact (List.mem_filter.mp hmem).1

/-- C5 witness: the test device config with only I1 set emits the i1 line
and gates out every other AWG key. -/
theorem c5_ipc_gating_order_witness :
    (∃ v, ("i1", v) ∈ CreateIPCRequest
      { SecretKey := "sk", ASecConfig := some { i1 := some "<payload>" } }) ∧
    ¬ ∃ v, ("jc", v) ∈ CreateIPCRequest
      { SecretKey := "sk", ASecConfig := some { i1 := some "<payload>" } } := by
  have h := (c5_ipc_gating_order
    { SecretKey := "sk", ASecConfig := some { i1 := some "<payload>" } }).2
  constructor
  · exact (h "i1" rfl).mpr rfl
  · intro hex
    have := (h "jc" rfl).mp hex
    exact absurd this (by decide)

/-! ## C6: SOCKS5 UDP request parsing -/

lemma getD_concat_add (X Y : List Nat) (j d : Nat) :
    (X ++ Y).getD (X.length + j) d = Y.getD j d := by
  rw [List.getD_append_right _ _ _ _ (Nat.le_add_right _ _), Nat.add_sub_cancel_left]

/-- C6 (amended): an otherwise well-formed datagram is accepted with the
declared host, port and payload provided its total length is at least 10;
malformed RSV/FRAG/ATYP bytes or a declared address length exceeding the
buffer are rejected.  (The length-10 floor is the parser's fast-path check;
complete domain datagrams shorter than 10 bytes are rejected, see the
counterexample.) -/
theorem c6_socks5_parse_amended :
    (∀ a b c d ph pl : Nat, ∀ payload : List Nat,
      parseSocks5HeaderFast ([0, 0, 0, 1, a, b, c, d, ph, pl] ++ payload)
        = some (.ipv4 a b c d, beUint16 ph pl, 10) ∧
      ([0, 0, 0, 1, a, b, c, d, ph, pl] ++ payload).drop 10 = payload) ∧
    (∀ name : List Nat, ∀ ph pl : Nat, ∀ payload : List Nat,
      10 ≤ 7 + name.length + payload.length →
      parseSocks5HeaderFast ([0, 0, 0, 3, name.length] ++ name ++ [ph, pl] ++ payload)
        = some (.domain name, beUint16 ph pl, 7 + name.length) ∧
      ([0, 0, 0, 3, name.length] ++ name ++ [ph, pl] ++ payload).drop (7 + name.length)
        = payload) ∧
    (∀ addr : List Nat, addr.length = 16 → ∀ ph pl : Nat, ∀ payload : List Nat,
      parseSocks5HeaderFast ([0, 0, 0, 4] ++ addr ++ [ph, pl] ++ payload)
        = some (.ipv6 addr, beUint16 ph pl, 22) ∧
      ([0, 0, 0, 4] ++ addr ++ [ph, pl] ++ payload).drop 22 = payload) ∧
    (∀ data : List Nat,
      (¬ data.getD 0 0 = 0 ∨ ¬ data.getD 1 0 = 0 ∨ ¬ data.getD 2 0 = 0) ∨
      (data.getD 3 0 ≠ 1 ∧ data.getD 3 0 ≠ 3 ∧ data.getD 3 0 ≠ 4) ∨
      (data.getD 3 0 = 1 ∧ data.length < 10) ∨
      (data.getD 3 0 = 3 ∧ data.length < 7 + data.getD 4 0) ∨
      (data.getD 3 0 = 4 ∧ data.length < 22) →
      parseSocks5HeaderFast data = none) := by
  refine ⟨?_, ?_, ?_, ?_⟩
  · -- IPv4
    intro a b c d ph pl payload
    have hlen : ([0, 0, 0, 1, a, b, c, d, ph, pl] ++ payload).length
        = payload.length + 10 := by simp
    have hnot : ¬ (([0, 0, 0, 1, a, b, c, d, ph, pl] ++ payload).length < 10) := by
      rw [hlen]; omega
    refine ⟨?_, rfl⟩
    rw [parseSocks5HeaderFast,
      if_neg (by
        push_neg
        exact ⟨not_lt.mp hnot, rfl, rfl, rfl⟩),
      if_pos (show ([0, 0, 0, 1, a, b, c, d, ph, pl] ++ payload).getD 3 0 = 1 from rfl),
      if_neg hnot]
    rfl
  · -- domain
    intro name ph pl payload hmin
    have hlen : ([0, 0, 0, 3, name.length] ++ name ++ [ph, pl] ++ payload).length
        = name.length + payload.length + 7 := by simp; omega
    have hnot10 : ¬ (([0, 0, 0, 3, name.length] ++ name ++ [ph, pl] ++ payload).length
        < 10) := by rw [hlen]; omega
    have hXlen : ([0, 0, 0, 3, name.length] ++ name).length = 5 + name.length := by
      simp; omega
    have hporthi :
        ([0, 0, 0, 3, name.length] ++ name ++ [ph, pl] ++ payload).getD
          (5 + name.length) 0 = ph := by
      rw [List.append_assoc ([0, 0, 0, 3, name.length] ++ name),
        show 5 + name.length = ([0, 0, 0, 3, name.length] ++ name).length + 0 from by
          rw [hXlen]; omega,
        getD_concat_add]
      rfl
    have hportlo :
        ([0, 0, 0, 3, name.length] ++ name ++ [ph, pl] ++ payload).getD
          (6 + name.length) 0 = pl := by
      rw [List.append_assoc ([0, 0, 0, 3, name.length] ++ name),
        show 6 + name.length = ([0, 0, 0, 3, name.length] ++ name).length + 1 from by
          rw [hXlen]; omega,
        getD_concat_add]
      rfl
    have hdrop5 : ([0, 0, 0, 3, name.length] ++ name ++ [ph, pl] ++ payload).drop 5
        = name ++ ([ph, pl] ++ payload) := by
      rw [List.append_assoc ([0, 0, 0, 3, name.length] ++ name)]
      rfl
    have htake : (name ++ ([ph, pl] ++ payload)).take name.length = name :=
      List.take_left name ([ph, pl] ++ payload)
    have hdropHL : ([0, 0, 0, 3, name.length] ++ name ++ [ph, pl] ++ payload).drop
        (7 + name.length) = payload := by
      rw [show 7 + name.length
          = (([0, 0, 0, 3, name.length] ++ name) ++ [ph, pl]).length from by simp; omega]
      exact List.drop_left _ payload
    refine ⟨?_, hdropHL⟩
    rw [parseSocks5HeaderFast,
      if_neg (by
        push_neg
        exact ⟨not_lt.mp hnot10, rfl, rfl, rfl⟩),
      if_neg (by rw [show ([0, 0, 0, 3, name.length] ++ name ++ [ph, pl] ++ payload).getD 3 0
        = 3 from rfl]; omega),
      if_pos (show ([0, 0, 0, 3, name.length] ++ name ++ [ph, pl] ++ payload).getD 3 0
        = 3 from rfl)]
    rw [show ([0, 0, 0, 3, name.length] ++ name ++ [ph, pl] ++ payload).getD 4 0
      = name.length from rfl]
    rw [if_neg (by rw [hlen]; omega)]
    rw [hporthi, hportlo, hdrop5, htake]
  · -- IPv6
    intro addr haddr ph pl payload
    have hlen : ([0, 0, 0, 4] ++ addr ++ [ph, pl] ++ payload).length
        = payload.length + 22 := by simp [haddr]; omega
    have hnot10 : ¬ (([0, 0, 0, 4] ++ addr ++ [ph, pl] ++ payload).length < 10) := by
      rw [hlen]; omega
    have hXlen : ([0, 0, 0, 4] ++ addr).length = 20 := by simp [haddr]
    have hporthi : ([0, 0, 0, 4] ++ addr ++ [ph, pl] ++ payload).getD 20 0 = ph := by
      rw [List.append_assoc ([0, 0, 0, 4] ++ addr),
        show 20 = ([0, 0, 0, 4] ++ addr).length + 0 from by rw [hXlen],
        getD_concat_add]
      rfl
    have hportlo : ([0, 0, 0, 4] ++ addr ++ [ph, pl] ++ payload).getD 21 0 = pl := by
      rw [List.append_assoc ([0, 0, 0, 4] ++ addr),
        show 21 = ([0, 0, 0, 4] ++ addr).length + 1 from by rw [hXlen],
        getD_concat_add]
      rfl
    have hdrop4 : ([0, 0, 0, 4] ++ addr ++ [ph, pl] ++ payload).drop 4
        = addr ++ ([ph, pl] ++ payload) := by
      rw [List.append_assoc ([0, 0, 0, 4] ++ addr)]
      rfl
    have htake : (addr ++ ([ph, pl] ++ payload)).take 16 = addr := by
      rw [← haddr]
      exact List.take_left addr ([ph, pl] ++ payload)
    have hdrop22 : ([0, 0, 0, 4] ++ addr ++ [ph, pl] ++ payload).drop 22 = payload := by
      rw [show 22 = (([0, 0, 0, 4] ++ addr) ++ [ph, pl]).length from by simp [haddr]]
      exact List.drop_left _ payload
    have hatyp : ([0, 0, 0, 4] ++ addr ++ [ph, pl] ++ payload).getD 3 0 = 4 := rfl
    refine ⟨?_, hdrop22⟩
    rw [parseSocks5HeaderFast,
      if_neg (by
        push_neg
        exact ⟨not_lt.mp hnot10, rfl, rfl, rfl⟩),
      if_neg (by rw [hatyp]; omega),
      if_neg (by rw [hatyp]; omega),
      if_pos hatyp,
      if_neg (by rw [hlen]; omega)]
    rw [hporthi, hportlo, hdrop4, htake]
  · -- rejection
    intro data hbad
    rw [parseSocks5HeaderFast]
    by_cases houter : data.length < 10 ∨ ¬ data.getD 0 0 = 0 ∨ ¬ data.getD 1 0 = 0 ∨
        ¬ data.getD 2 0 = 0
    · rw [if_pos houter]
    · rw [if_neg houter]
      push_neg at houter
      obtain ⟨hlen10, h0, h1, h2⟩ := houter
      rcases hbad with hrsv | ⟨ha1, ha3, ha4⟩ | ⟨_, hl⟩ | ⟨ha, hl⟩ | ⟨ha, hl⟩
      · rcases hrsv with h | h | h <;> exact absurd (by assumption) h
      · rw [if_neg ha1, if_neg ha3, if_neg ha4]
      · omega
      · rw [if_neg (by omega), if_pos ha, if_pos hl]
      · rw [if_neg (by omega), if_neg (by omega), if_pos ha, if_pos hl]

/-- C6 witness: the three acceptance branches and a rejection at concrete
datagrams. -/
theorem c6_socks5_parse_amended_witness :
    parseSocks5HeaderFast [0, 0, 0, 1, 10, 0, 0, 1, 0, 53]
        = some (.ipv4 10 0 0 1, beUint16 0 53, 10) ∧
    parseSocks5HeaderFast [0, 0, 0, 3, 3, 97, 98, 99, 0, 80, 7]
        = some (.domain [97, 98, 99], beUint16 0 80, 10) ∧
    parseSocks5HeaderFast [1, 0, 0, 1, 10, 0, 0, 1, 0, 53] = none := by
  refine ⟨?_, ?_, ?_⟩
  · exact (c6_socks5_parse_amended.1 10 0 0 1 0 53 []).1
  · exact (c6_socks5_parse_amended.2.1 [97, 98, 99] 0 80 [7] (by decide)).1
  · exact c6_socks5_parse_amended.2.2.2 [1, 0, 0, 1, 10, 0, 0, 1, 0, 53]
      (Or.inl (Or.inl (by decide)))

/-- C6 counterexample: the complete one-byte-hostname domain datagram
`00 00 00 03 01 'a' 00 80` (RSV/FRAG zero, ATYP 3, full DST.ADDR and
DST.PORT in the buffer, empty payload) is rejected by the parser's
10-byte fast-path floor, refuting unconditional acceptance. -/
theorem c6_counterexample :
    parseSocks5HeaderFast [0, 0, 0, 3, 1, 97, 0, 80] = none ∧
    ([0, 0, 0, 3, 1, 97, 0, 80] : List Nat).length = 8 ∧
    7 + ([0, 0, 0, 3, 1, 97, 0, 80] : List Nat).getD 4 0
      ≤ ([0, 0, 0, 3, 1, 97, 0, 80] : List Nat).length := by
  refine ⟨by decide, by decide, by decide⟩

/-! ## C7: pool size invariant -/

lemma mapLookup_cons (e : String × UDPConnection) (rest : List (String × UDPConnection))
    (k : String) :
    mapLookup (e :: rest) k = if e.1 == k then some e.2 else mapLookup rest k := by
  by_cases he : (e.1 == k) = true
  · simp [mapLookup, List.find?_cons_of_pos, he]
  · simp only [Bool.not_eq_true] at he
    simp [mapLookup, List.find?_cons_of_neg, he]

lemma length_mapInsert_absent (m : List (String × UDPConnection)) (k : String)
    (v : UDPConnection) (h : mapLookup m k = none) :
    (mapInsert m k v).length = m.length + 1 := by
  induction m with
  | nil => rfl
  | cons e rest ih =>
    rw [mapLookup_cons] at h
    by_cases he : (e.1 == k) = true
    · rw [if_pos he] at h; exact absurd h (by simp)
    · rw [if_neg (by simp_all)] at h
      simp only [mapInsert, he, Bool.false_eq_true, if_false, List.length_cons, ih h]

lemma length_mapInsert_present (m : List (String × UDPConnection)) (k : String)
    (v c : UDPConnection) (h : mapLookup m k = some c) :
    (mapInsert m k v).length = m.length := by
  induction m with
  | nil => exact absurd h (by simp [mapLookup])
  | cons e rest ih =>
    rw [mapLookup_cons] at h
    by_cases he : (e.1 == k) = true
    · simp only [mapInsert, he, if_true, List.length_cons]
    · rw [if_neg (by simp_all)] at h
      simp only [mapInsert, he, Bool.false_eq_true, if_false, List.length_cons, ih h]

lemma length_mapDelete_present (m : List (String × UDPConnection)) (k : String)
    (c : UDPConnection) (h : mapLookup m k = some c) :
    m.length = (mapDelete m k).length + 1 := by
  induction m with
  | nil => exact absurd h (by simp [mapLookup])
  | cons e rest ih =>
    rw [mapLookup_cons] at h
    by_cases he : (e.1 == k) = true
    · simp only [mapDelete, he, if_true, List.length_cons]
    · rw [if_neg (by simp_all)] at h
      simp only [mapDelete, he, Bool.false_eq_true, if_false, List.length_cons, ih h]

lemma mapLookup_mapDelete_none (m : List (String × UDPConnection)) (k k2 : String)
    (h : mapLookup m k = none) : mapLookup (mapDelete m k2) k = none := by
  induction m with
  | nil => rfl
  | cons e rest ih =>
    rw [mapLookup_cons] at h
    by_cases he : (e.1 == k) = true
    · rw [if_pos he] at h; exact absurd h (by simp)
    · rw [if_neg (by simp_all)] at h
      by_cases he2 : (e.1 == k2) = true
      · simp only [mapDelete, he2, if_true]
        exact h
      · simp only [mapDelete, he2, Bool.false_eq_true, if_false, mapLookup_cons]
        rw [if_neg he]
        exact ih h

lemma sizeInv_deleteKeys (keys : List String) (p : UDPConnectionPool) (h : sizeInv p) :
    sizeInv (deleteKeys p keys) := by
  induction keys generalizing p with
  | nil => exact h
  | cons k rest ih =>
    simp only [deleteKeys, List.foldl_cons]
    refine ih _ ?_
    cases hl : mapLookup p.connections k with
    | none => simpa [hl] using h
    | some c =>
      simp only [hl]
      have hlen := length_mapDelete_present p.connections k c hl
      unfold sizeInv at h ⊢
      simp only at h ⊢
      omega

lemma lookup_deleteKeys_none (keys : List String) (p : UDPConnectionPool) (k : String)
    (h : mapLookup p.connections k = none) :
    mapLookup (deleteKeys p keys).connections k = none := by
  induction keys generalizing p with
  | nil => exact h
  | cons k2 rest ih =>
    simp only [deleteKeys, List.foldl_cons]
    refine ih _ ?_
    cases hl : mapLookup p.connections k2 with
    | none => simpa [hl] using h
    | some c =>
      simp only [hl]
      exact mapLookup_mapDelete_none _ _ _ h

lemma sizeInv_cleanupOldestLocked (p : UDPConnectionPool) (count : Nat) (h : sizeInv p) :
    sizeInv (p.cleanupOldestLocked count) := by
  unfold UDPConnectionPool.cleanupOldestLocked
  split
  · exact h
  · exact sizeInv_deleteKeys _ _ h

lemma sizeInv_Set_fresh (p : UDPConnectionPool) (k : String) (c : UDPConnection) (now : Int)
    (h : sizeInv p) (hk : mapLookup p.connections k = none) : sizeInv (p.Set k c now) := by
  unfold UDPConnectionPool.Set
  by_cases hcap : p.currentSize ≥ p.maxSize
  · rw [if_pos hcap]
    have h2 := sizeInv_cleanupOldestLocked p 5 h
    have hk2 : mapLookup (p.cleanupOldestLocked 5).connections k = none := by
      unfold UDPConnectionPool.cleanupOldestLocked
      split
      · exact hk
      · exact lookup_deleteKeys_none _ _ _ hk
    have hlen := length_mapInsert_absent (p.cleanupOldestLocked 5).connections k
      { c with lastUsed := now } hk2
    unfold sizeInv at h2 ⊢
    simp only at h2 ⊢
    omega
  · rw [if_neg hcap]
    have hlen := length_mapInsert_absent p.connections k { c with lastUsed := now } hk
    unfold sizeInv at h ⊢
    simp only at h ⊢
    omega

lemma sizeInv_Get (p : UDPConnectionPool) (k : String) (now : Int) (h : sizeInv p) :
    sizeInv (p.Get k now).2 := by
  unfold UDPConnectionPool.Get
  cases hl : mapLookup p.connections k with
  | none => exact h
  | some c =>
    have hlen := length_mapInsert_present p.connections k { c with lastUsed := now } c hl
    unfold sizeInv at h ⊢
    simp only at h ⊢
    omega

lemma sizeInv_Delete (p : UDPConnectionPool) (k : String) (h : sizeInv p) :
    sizeInv (p.Delete k) := by
  unfold UDPConnectionPool.Delete
  cases hl : mapLookup p.connections k with
  | none => simp only [hl]; exact h
  | some c =>
    simp only [hl]
    have hlen := length_mapDelete_present p.connections k c hl
    unfold sizeInv at h ⊢
    simp only at h ⊢
    omega

lemma sizeInv_Cleanup (p : UDPConnectionPool) (maxAge now : Int) (h : sizeInv p) :
    sizeInv (p.Cleanup maxAge now) :=
  sizeInv_deleteKeys _ _ h

/-- C7 (amended): starting from any pool satisfying the size invariant,
any sequence of Get, Set, Delete and Cleanup operations in which every Set
targets a key absent at that moment preserves currentSize = |connections|
after each operation. -/
theorem c7_pool_size_invariant_amended (ops : List PoolOp) (p : UDPConnectionPool)
    (h : sizeInv p) (hfresh : SetKeysFresh p ops) : sizeInv (runPool p ops) := by
  induction ops generalizing p with
  | nil => exact h
  | cons op rest ih =>
    obtain ⟨hop, hrest⟩ := hfresh
    refine ih (stepPool p op) ?_ hrest
    cases op with
    | get k now => exact sizeInv_Get p k now h
    | set k c now => exact sizeInv_Set_fresh p k c now h hop
    | delete k => exact sizeInv_Delete p k h
    | cleanup a now => exact sizeInv_Cleanup p a now h

/-- C7 witness: a concrete fresh-key run (set, get, delete, set again). -/
theorem c7_pool_size_invariant_amended_witness :
    sizeInv (runPool (NewUDPConnectionPool 1000)
      [.set "a" ⟨0⟩ 0, .get "a" 1, .delete "a", .set "a" ⟨0⟩ 2]) :=
  c7_pool_size_invariant_amended
    [.set "a" ⟨0⟩ 0, .get "a" 1, .delete "a", .set "a" ⟨0⟩ 2]
    (NewUDPConnectionPool 1000) rfl
    ⟨rfl, trivial, trivial, rfl, trivial⟩

/-- C7 counterexample: a Set on a key already present overwrites the map
entry but still increments currentSize, breaking the cardinality
invariant. -/
theorem c7_counterexample :
    (runPool (NewUDPConnectionPool 1000)
        [.set "a" ⟨0⟩ 0, .set "a" ⟨0⟩ 1]).currentSize = 2 ∧
    (runPool (NewUDPConnectionPool 1000)
        [.set "a" ⟨0⟩ 0, .set "a" ⟨0⟩ 1]).connections.length = 1 := by
  exact ⟨rfl, rfl⟩

/-! ## C8: capacity eviction (cleanupOldestLocked) -/

/-- The `lastUsed` time the scan reads through `p.connections[oldKey]`. -/
def lastUsedOf (conns : List (String × UDPConnection)) (k : String) : Int :=
  ((mapLookup conns k).getD ⟨0⟩).lastUsed

/-- Modelled from the spec (amended wording): the new entry replaces the
first buffered candidate that is strictly newer than it, i.e. the first
candidate whose `lastUsed` the entry's `lastUsed` is strictly before; if
none is strictly newer, the buffer is unchanged. -/
def specReplaceOldest (conns : List (String × UDPConnection)) (t : Int) (key : String)
    (oldest : List String) : List String :=
  oldest.set (oldest.findIdx (fun k => decide (t < lastUsedOf conns k))) key

/-- Modelled from the spec (amended wording): scan the map once; each new
entry fills a free buffer slot (buffer capacity `count`) or replaces the
first strictly newer buffered candidate. -/
def specSelectOldest (conns : List (String × UDPConnection)) (count : Nat) : List String :=
  conns.foldl
    (fun oldest e =>
      if oldest.length < count then oldest ++ [e.1]
      else specReplaceOldest conns e.2.lastUsed e.1 oldest)
    []

lemma replaceOldestCandidate_eq_spec (conns : List (String × UDPConnection)) (t : Int)
    (key : String) (oldest : List String) :
    replaceOldestCandidate conns t key oldest = specReplaceOldest conns t key oldest := by
  induction oldest with
  | nil => rfl
  | cons k0 rest ih =>
    unfold replaceOldestCandidate specReplaceOldest
    rw [List.findIdx_cons]
    by_cases hc : t < lastUsedOf conns k0
    · rw [if_pos (show t < ((mapLookup conns k0).getD ⟨0⟩).lastUsed from hc),
        show (decide (t < lastUsedOf conns k0)) = true from decide_eq_true hc]
      rfl
    · rw [if_neg (show ¬ t < ((mapLookup conns k0).getD ⟨0⟩).lastUsed from hc),
        show (decide (t < lastUsedOf conns k0)) = false from decide_eq_false hc]
      rw [show (bif false then 0
            else List.findIdx (fun k => decide (t < lastUsedOf conns k)) rest + 1)
          = List.findIdx (fun k => decide (t < lastUsedOf conns k)) rest + 1 from rfl]
      rw [show (k0 :: rest).set
            (List.findIdx (fun k => decide (t < lastUsedOf conns k)) rest + 1) key
          = k0 :: rest.set (List.findIdx (fun k => decide (t < lastUsedOf conns k)) rest) key
          from rfl]
      rw [ih]
      rfl

lemma length_replaceOldestCandidate (conns : List (String × UDPConnection)) (t : Int)
    (key : String) (oldest : List String) :
    (replaceOldestCandidate conns t key oldest).length = oldest.length := by
  induction oldest with
  | nil => rfl
  | cons k0 rest ih =>
    unfold replaceOldestCandidate
    split
    · simp
    · simp [ih]

lemma length_selectOldest_le (conns : List (String × UDPConnection)) (count : Nat) :
    (selectOldest conns count).length ≤ count := by
  unfold selectOldest
  have : ∀ (l : List (String × UDPConnection)) (acc : List String),
      acc.length ≤ count →
      (l.foldl (fun oldest e =>
        if oldest.length < count then oldest ++ [e.1]
        else replaceOldestCandidate conns e.2.lastUsed e.1 oldest) acc).length ≤ count := by
    intro l
    induction l with
    | nil => intro acc h; exact h
    | cons e rest ih =>
      intro acc h
      simp only [List.foldl_cons]
      by_cases hlt : acc.length < count
      · refine ih _ ?_
        rw [if_pos hlt]
        simp only [List.length_append, List.length_singleton]
        omega
      · refine ih _ ?_
        rw [if_neg hlt, length_replaceOldestCandidate]
        exact h
  exact this conns [] (by simp)

/-- C8 (amended): the capacity-eviction scan keeps a buffer of at most
`count` candidates; each scanned entry either fills a free slot or
replaces the first buffered candidate that is strictly newer than it
(the source compares `conn.lastUsed.Before(candidate.lastUsed)`); the
buffered candidates are then removed exactly as in `Delete`; and `Set`
invokes this eviction with count 5 when `currentSize ≥ maxSize`. -/
theorem c8_eviction_amended (conns : List (String × UDPConnection)) (count : Nat)
    (p : UDPConnectionPool) (key : String) (conn : UDPConnection) (now : Int)
    (hcap : p.currentSize ≥ p.maxSize) :
    selectOldest conns count = specSelectOldest conns count ∧
    (selectOldest conns count).length ≤ count ∧
    (∀ q : UDPConnectionPool, ∀ keys : List String,
      deleteKeys q keys = keys.foldl (fun r k => r.Delete k) q) ∧
    p.Set key conn now =
      { p.cleanupOldestLocked 5 with
        connections := mapInsert (p.cleanupOldestLocked 5).connections key
          { conn with lastUsed := now },
        currentSize := (p.cleanupOldestLocked 5).currentSize + 1 } := by
  refine ⟨?_, length_selectOldest_le conns count, fun q keys => rfl, ?_⟩
  · unfold selectOldest specSelectOldest
    congr 1
    funext oldest e
    rw [replaceOldestCandidate_eq_spec]
  · unfold UDPConnectionPool.Set
    rw [if_pos hcap]

/-- C8 witness: the amended description applied to a six-entry pool over
capacity. -/
theorem c8_eviction_amended_witness :
    selectOldest
        [("k1", ⟨10⟩), ("k2", ⟨20⟩), ("k3", ⟨30⟩), ("k4", ⟨40⟩), ("k5", ⟨50⟩), ("k6", ⟨15⟩)] 5
      = specSelectOldest
        [("k1", ⟨10⟩), ("k2", ⟨20⟩), ("k3", ⟨30⟩), ("k4", ⟨40⟩), ("k5", ⟨50⟩), ("k6", ⟨15⟩)] 5 :=
  (c8_eviction_amended
    [("k1", ⟨10⟩), ("k2", ⟨20⟩), ("k3", ⟨30⟩), ("k4", ⟨40⟩), ("k5", ⟨50⟩), ("k6", ⟨15⟩)] 5
    { connections := [("a", ⟨0⟩)], maxSize := 1, currentSize := 1 } "b" ⟨0⟩ 7
    (by decide)).1

/-- Modelled from the claim as stated: each scanned entry fills a free
slot or replaces the first buffered candidate whose `last_used` is
strictly older than the entry's `last_used`. -/
def claimReplaceOldest (conns : List (String × UDPConnection)) (t : Int) (key : String)
    (oldest : List String) : List String :=
  oldest.set (oldest.findIdx (fun k => decide (lastUsedOf conns k < t))) key

/-- Modelled from the claim as stated: the scan with the strictly-older
replacement rule. -/
def claimSelectOldest (conns : List (String × UDPConnection)) (count : Nat) : List String :=
  conns.foldl
    (fun oldest e =>
      if oldest.length < count then oldest ++ [e.1]
      else claimReplaceOldest conns e.2.lastUsed e.1 oldest)
    []

/-- C8 counterexample: on a six-entry map with times 10, 20, 30, 40, 50 and
a final entry at 15, the source scan replaces the candidate with time 20
(the first strictly newer one), while the claim's strictly-older rule
would replace the candidate with time 10; the selected buffers differ. -/
theorem c8_counterexample :
    selectOldest
        [("k1", ⟨10⟩), ("k2", ⟨20⟩), ("k3", ⟨30⟩), ("k4", ⟨40⟩), ("k5", ⟨50⟩), ("k6", ⟨15⟩)] 5
      = ["k1", "k6", "k3", "k4", "k5"] ∧
    claimSelectOldest
        [("k1", ⟨10⟩), ("k2", ⟨20⟩), ("k3", ⟨30⟩), ("k4", ⟨40⟩), ("k5", ⟨50⟩), ("k6", ⟨15⟩)] 5
      = ["k6", "k2", "k3", "k4", "k5"] ∧
    selectOldest
        [("k1", ⟨10⟩), ("k2", ⟨20⟩), ("k3", ⟨30⟩), ("k4", ⟨40⟩), ("k5", ⟨50⟩), ("k6", ⟨15⟩)] 5
      ≠ claimSelectOldest
        [("k1", ⟨10⟩), ("k2", ⟨20⟩), ("k3", ⟨30⟩), ("k4", ⟨40⟩), ("k5", ⟨50⟩), ("k6", ⟨15⟩)] 5 := by
  refine ⟨by decide, by decide, by decide⟩

/-! ## C9: DNS cache resolution -/

lemma dnsLookupEntry_insert_self (m : List (String × cacheEntry)) (k : String)
    (v : cacheEntry) : dnsLookupEntry (dnsInsertEntry m k v) k = some v := by
  induction m with
  | nil => simp [dnsInsertEntry, dnsLookupEntry]
  | cons e rest ih =>
    by_cases he : (e.1 == k) = true
    · simp [dnsInsertEntry, he, dnsLookupEntry]
    · simp only [dnsInsertEntry, he, Bool.false_eq_true, if_false]
      rw [show dnsLookupEntry (e :: dnsInsertEntry rest k v) k
          = dnsLookupEntry (dnsInsertEntry rest k v) k from by
        simp only [Bool.not_eq_true] at he
        simp [dnsLookupEntry, List.find?_cons_of_neg, he]]
      exact ih

lemma selectResolvedIP_spec (ips : List IPAddr) (h : ips ≠ []) :
    ips.find? IPAddr.isV4 = some (selectResolvedIP ips) ∨
      (ips.find? IPAddr.isV4 = none ∧ ips.head? = some (selectResolvedIP ips)) := by
  cases hf : ips.find? IPAddr.isV4 with
  | some ip =>
    left
    unfold selectResolvedIP
    rw [hf]
  | none =>
    right
    refine ⟨rfl, ?_⟩
    unfold selectResolvedIP
    rw [hf]
    cases ips with
    | nil => exact absurd rfl h
    | cons a rest => rfl

/-- The lookup path of `Resolve` (taken on a cache miss or a stale entry). -/
def resolveLookupPath (d : DNSCache) (host : String) (now : Int)
    (lookupResult : Except String (List IPAddr)) : Except String IPAddr × DNSCache :=
  match lookupResult with
  | .error e => (.error e, d)
  | .ok ips =>
    if ips.isEmpty then (.error "no IP found", d)
    else
      (.ok (selectResolvedIP ips),
       { d with cache := dnsInsertEntry d.cache host ⟨selectResolvedIP ips, now⟩ })

lemma resolve_fresh_hit (d : DNSCache) (host : String) (now : Int)
    (lookupResult : Except String (List IPAddr)) (e : cacheEntry)
    (hl : dnsLookupEntry d.cache host = some e) (hf : now - e.timestamp < d.ttl) :
    d.Resolve host now lookupResult = (.ok e.ip, d) := by
  simp only [DNSCache.Resolve, hl, if_pos hf]

lemma resolve_lookup_path (d : DNSCache) (host : String) (now : Int)
    (lookupResult : Except String (List IPAddr))
    (hstale : ∀ e, dnsLookupEntry d.cache host = some e → d.ttl ≤ now - e.timestamp) :
    d.Resolve host now lookupResult = resolveLookupPath d host now lookupResult := by
  cases hl : dnsLookupEntry d.cache host with
  | none =>
    simp only [DNSCache.Resolve, hl]
    rfl
  | some e =>
    have := hstale e hl
    simp only [DNSCache.Resolve, hl, if_neg (by omega : ¬ now - e.timestamp < d.ttl)]
    rfl

/-- C9: a fresh cache entry is returned as-is; otherwise the lookup runs,
its error or empty result is an error, and a nonempty result selects the
first IPv4 (else the first overall), caches it with timestamp `now` and
returns it; the overall result is an error iff no fresh entry exists and
the lookup errors or is empty. -/
theorem c9_dns_cache_resolve (d : DNSCache) (host : String) (now : Int)
    (lookupResult : Except String (List IPAddr)) :
    (∀ e, dnsLookupEntry d.cache host = some e → now - e.timestamp < d.ttl →
      d.Resolve host now lookupResult = (.ok e.ip, d)) ∧
    ((∀ e, dnsLookupEntry d.cache host = some e → d.ttl ≤ now - e.timestamp) →
      (∀ err, lookupResult = .error err →
        d.Resolve host now lookupResult = (.error err, d)) ∧
      (lookupResult = .ok [] →
        d.Resolve host now lookupResult = (.error "no IP found", d)) ∧
      (∀ ips, lookupResult = .ok ips → ips ≠ [] →
        d.Resolve host now lookupResult
          = (.ok (selectResolvedIP ips),
             { d with cache := dnsInsertEntry d.cache host ⟨selectResolvedIP ips, now⟩ }) ∧
        dnsLookupEntry (dnsInsertEntry d.cache host ⟨selectResolvedIP ips, now⟩) host
          = some ⟨selectResolvedIP ips, now⟩ ∧
        (ips.find? IPAddr.isV4 = some (selectResolvedIP ips) ∨
          (ips.find? IPAddr.isV4 = none ∧ ips.head? = some (selectResolvedIP ips))))) ∧
    ((∃ err, (d.Resolve host now lookupResult).1 = .error err) ↔
      ((∀ e, dnsLookupEntry d.cache host = some e → d.ttl ≤ now - e.timestamp) ∧
        ((∃ err, lookupResult = .error err) ∨ lookupResult = .ok []))) := by
  refine ⟨?_, ?_, ?_⟩
  · intro e hl hf
    exact resolve_fresh_hit d host now lookupResult e hl hf
  · intro hstale
    have hres := resolve_lookup_path d host now lookupResult hstale
    refine ⟨?_, ?_, ?_⟩
    · intro err herr
      rw [hres, herr]
      rfl
    · intro hnil
      rw [hres, hnil]
      rfl
    · intro ips hips hne
      refine ⟨?_, dnsLookupEntry_insert_self _ _ _, selectResolvedIP_spec ips hne⟩
      rw [hres, hips]
      simp only [resolveLookupPath]
      rw [if_neg (by simp [hne])]
  · by_cases hstale : ∀ e, dnsLookupEntry d.cache host = some e → d.ttl ≤ now - e.timestamp
    · have hres := resolve_lookup_path d host now lookupResult hstale
      cases lookupResult with
      | error err =>
        rw [hres]
        exact ⟨fun _ => ⟨hstale, Or.inl ⟨err, rfl⟩⟩, fun _ => ⟨err, rfl⟩⟩
      | ok ips =>
        cases ips with
        | nil =>
          rw [hres]
          exact ⟨fun _ => ⟨hstale, Or.inr rfl⟩, fun _ => ⟨"no IP found", rfl⟩⟩
        | cons a rest =>
          have hred : resolveLookupPath d host now (.ok (a :: rest))
              = (.ok (selectResolvedIP (a :: rest)),
                 { d with cache := (dnsInsertEntry d.cache host
                    (⟨selectResolvedIP (a :: rest), now⟩ : cacheEntry)) }) := by
            simp only [resolveLookupPath]
            rw [if_neg (by simp)]
          rw [hres, hred]
          constructor
          · rintro ⟨err, herr⟩
            exact absurd herr (by simp)
          · rintro ⟨_, herr | hok⟩
            · obtain ⟨err, herr⟩ := herr
              exact absurd herr (by simp)
            · exact absurd hok (by simp)
    · push_neg at hstale
      obtain ⟨e, hl, hf⟩ := hstale
      have hres := resolve_fresh_hit d host now lookupResult e hl (by omega)
      rw [hres]
      constructor
      · rintro ⟨err, herr⟩
        exact absurd herr (by simp)
      · rintro ⟨hstale2, _⟩
        have := hstale2 e hl
        omega

/-- C9 witness: a stale entry is re-resolved; the first IPv4 among the
lookup results is selected, cached with the current time and returned. -/
theorem c9_dns_cache_resolve_witness :
    DNSCache.Resolve
        { cache := [("example.com", ⟨.v4 9 9 9 9, 0⟩)], ttl := 5 }
        "example.com" 100 (.ok [.v6 "2001:db8::1", .v4 1 2 3 4])
      = (.ok (selectResolvedIP [.v6 "2001:db8::1", .v4 1 2 3 4]),
         { cache := [("example.com",
            ⟨selectResolvedIP [.v6 "2001:db8::1", .v4 1 2 3 4], 100⟩)], ttl := 5 }) :=
  (((c9_dns_cache_resolve
      { cache := [("example.com", ⟨.v4 9 9 9 9, 0⟩)], ttl := 5 }
      "example.com" 100 (.ok [.v6 "2001:db8::1", .v4 1 2 3 4])).2.1
    (by
      intro e he
      rw [show dnsLookupEntry [("example.com", ⟨.v4 9 9 9 9, 0⟩)] "example.com"
          = some ⟨.v4 9 9 9 9, 0⟩ from rfl] at he
      rw [show e = (⟨.v4 9 9 9 9, 0⟩ : cacheEntry) from (Option.some.injEq _ _ ▸ he).symm]
      decide)).2.2
    [.v6 "2001:db8::1", .v4 1 2 3 4] rfl (by decide)).1

end Wireproxy
